import Mathlib

/-!
# Verification of the `media-player-oxide` decode-scheduling core

This file gives a shallow embedding of the decode-scheduling core of the
`media-player-oxide` repository (crates `libav-player` and `wgpu-player`) and
proves or refutes the frozen claims about it.

The embedding models the external libav collaborator (demuxer reads, decoder
decode results, hardware device creation, ...) as explicit oracles: each call
site that in the Rust code crosses into libav consumes the next entry of a
result list (or queries an environment function).  The scheduler logic itself
(`player.rs`), the accelerator configuration (`accelerator.rs`), the decoder
lifecycle (`codec/mod.rs`, `codec/subtitle.rs`) and the hardware-fallback
construction (`wgpu-player/src/codec.rs`) are translated statement by
statement from the source.
-/

namespace LibavPlayer

/-- `i64::MAX`, used by `MediaPlayer::get_ready_frame` as the sentinel for
"no ready frame" (`player.rs` lines 391-393). -/
def i64Max : Int := 9223372036854775807

/-- The errno of `AVERROR(EAGAIN)` on Linux: `EAGAIN = 11`, and
`player.rs` line 20 defines `EAGAIN = -(ffmpeg::EAGAIN)`. -/
def eagainErrno : Int := -11

/-- The errno of `AVERROR_EOF` (FFmpeg: `FFERRTAG('E','O','F',' ')`). -/
def averrorEofErrno : Int := -541478725

/-- The errno checked by `MediaPlayer::play`/`pause` (`player.rs` lines 265,
282): `-38` is `AVERROR(ENOSYS)`, "function not implemented". -/
def enosysErrno : Int := -38

/-- `ffmpeg::AVERROR_UNKNOWN`, used by `FFmpegError::custom`. -/
def averrorUnknownErrno : Int := -1313558101

/-- An error originating from libav, identified by its errno
(`error.rs`, mirrored by `wgpu-player/src/error.rs` lines 14-45). -/
structure FFmpegError where
  errno : Int
deriving Repr, DecidableEq

deriving instance DecidableEq for Except

/-- Modelled from the spec: `FFmpegError::needs_data` lives in the missing
`libav-player/src/error.rs`.  Per the spec (§4.3, §7) the "needs more input"
condition is the decoder's `AVERROR(EAGAIN)` polling outcome, which the player
itself also produces at `player.rs` line 386 via
`FFmpegError::from_raw_errno(EAGAIN)`. -/
def FFmpegError.needs_data (e : FFmpegError) : Bool :=
  e.errno = eagainErrno

/-- Modelled from the spec: `FFmpegError::is_eof` lives in the missing
`libav-player/src/error.rs`.  Per the spec (§6, §7) end-of-input is signalled
distinctly from other errors; in libav that signal is `AVERROR_EOF`. -/
def FFmpegError.is_eof (e : FFmpegError) : Bool :=
  e.errno = averrorEofErrno

/-- Errors surfaced by the player (`error.rs`): `EndOfStream` is the normal
termination signal of `process_next_frame` (`player.rs` line 303),
`NoAvailableStreams` is returned by `MediaPlayerBuilder::build`
(`player.rs` line 134), and all other libav errors are wrapped. -/
inductive PlayerError
  | endOfStream
  | noAvailableStreams
  | ffmpeg (e : FFmpegError)
deriving Repr, DecidableEq

/-- The media kind of a delivered frame (`DecodedFrame` variants,
`player.rs` lines 511-515). -/
inductive MediaKind
  | video
  | audio
  | subtitle
deriving Repr, DecidableEq

/-- A frame delivered to the caller: its kind and the presentation timestamp
(`pts`, an `i64` in the Rust code) of the scratch `MediaFrame` it came from. -/
structure DecodedFrame where
  kind : MediaKind
  pts : Int
deriving Repr, DecidableEq

/-- The per-kind decoded-frame counters and packet counters of
`PlayerStatistics` (`player.rs` lines 821-842).  The wall-clock `Duration`
fields are not modelled (real time is outside the embedding). -/
structure PlayerStatistics where
  numVideoFramesDecoded : Nat := 0
  numAudioFramesDecoded : Nat := 0
  numSubtitleFramesDecoded : Nat := 0
  packetReadTotal : Nat := 0
  framesDecodedTotal : Nat := 0
deriving Repr, DecidableEq

/-- One active decoder as the scheduler sees it (`TaggedDecoder`,
`player.rs` lines 898-901): the stream index it serves plus oracles giving
the result of each successive `decode`, `write_packet` and `flush` call made
on it.  A successful decode carries the `pts` the decoder wrote into the
scratch frame. -/
structure DecoderSlot where
  streamIndex : Nat
  decodeResults : List (Except FFmpegError Int)
  writeResults : List (Except FFmpegError Unit)
  flushResults : List (Except FFmpegError Unit)
deriving Repr, DecidableEq

/-- Ghost trace of the observable scheduler events needed by the temporal
claims: successful packet reads, the end-of-input read, and the one call to
`MediaPlayer::flush`. -/
inductive PlayerEvent
  | readOk (streamIndex : Nat)
  | readEof
  | flushedDecoders
deriving Repr, DecidableEq

/-- The `MediaPlayer` state (`player.rs` lines 216-246).  The input source's
packet reads are an oracle list (`readResults`: a successful read yields the
packet's stream index, matching what `dispatch_packet` consumes).  `events`
is ghost instrumentation, written only by the read/flush branches of the
`process_next_frame` loop. -/
structure PlayerState where
  decoderVideo : Option DecoderSlot
  decoderAudio : Option DecoderSlot
  decoderSubtitle : Option DecoderSlot
  packetStreamIndex : Nat
  frameVideoReady : Option Int
  frameAudioReady : Option Int
  frameSubtitleReady : Option Int
  endOfPacketStream : Bool
  statistics : PlayerStatistics
  readResults : List (Except FFmpegError Nat)
  events : List PlayerEvent
deriving Repr, DecidableEq

/-- `MediaPlayer::get_ready_frame` (`player.rs` lines 390-424), translated
branch for branch.  The ready markers store the `pts` recorded at poll time
(`player.rs` lines 352, 363, 375), which is also the `pts` of the scratch
frame handed out, so the delivered frame carries the marker value.  The
`MediaFrame::new()` allocation is modelled as always succeeding. -/
def MediaPlayer.get_ready_frame (s : PlayerState) :
    Option DecodedFrame × PlayerState :=
  let videoReadyTs := s.frameVideoReady.getD i64Max
  let audioReadyTs := s.frameAudioReady.getD i64Max
  let subtitleReadyTs := s.frameSubtitleReady.getD i64Max
  if videoReadyTs ≤ audioReadyTs ∧ videoReadyTs ≤ subtitleReadyTs ∧
      videoReadyTs ≠ i64Max then
    (some ⟨MediaKind.video, videoReadyTs⟩, { s with frameVideoReady := none })
  else if audioReadyTs ≤ videoReadyTs ∧ audioReadyTs ≤ subtitleReadyTs ∧
      audioReadyTs ≠ i64Max then
    (some ⟨MediaKind.audio, audioReadyTs⟩, { s with frameAudioReady := none })
  else if subtitleReadyTs ≤ videoReadyTs ∧ subtitleReadyTs ≤ audioReadyTs ∧
      subtitleReadyTs ≠ i64Max then
    (some ⟨MediaKind.subtitle, subtitleReadyTs⟩,
      { s with frameSubtitleReady := none })
  else
    (none, s)

/-- Pop the next decode result from a decoder's oracle.  An exhausted oracle
yields a fatal `AVERROR_UNKNOWN`-style error: every execution of interest
supplies enough results, and a fatal default keeps the embedding total
without ever looking like a "needs data" or end-of-stream outcome. -/
def DecoderSlot.nextDecode (d : DecoderSlot) :
    Except FFmpegError Int × DecoderSlot :=
  match d.decodeResults with
  | [] => (Except.error ⟨averrorUnknownErrno⟩, d)
  | r :: rest => (r, { d with decodeResults := rest })

/-- Pop the next write result from a decoder's oracle (same default). -/
def DecoderSlot.nextWrite (d : DecoderSlot) :
    Except FFmpegError Unit × DecoderSlot :=
  match d.writeResults with
  | [] => (Except.error ⟨averrorUnknownErrno⟩, d)
  | r :: rest => (r, { d with writeResults := rest })

/-- Pop the next flush result from a decoder's oracle (same default). -/
def DecoderSlot.nextFlush (d : DecoderSlot) :
    Except FFmpegError Unit × DecoderSlot :=
  match d.flushResults with
  | [] => (Except.error ⟨averrorUnknownErrno⟩, d)
  | r :: rest => (r, { d with flushResults := rest })

/-- The video poll of `get_next_frame` (`player.rs` lines 346-355): decode
into the video scratch frame through `ignore_out_of_data_error`
(`player.rs` lines 903-912) — success marks the stream ready with the frame's
`pts` and bumps the per-kind counter, a "needs data" error is swallowed, and
any other error propagates. -/
def MediaPlayer.pollVideo (s : PlayerState) :
    Except FFmpegError Unit × PlayerState :=
  match s.decoderVideo with
  | none => (Except.ok (), s)
  | some d =>
    let (r, d') := d.nextDecode
    let s' := { s with decoderVideo := some d' }
    match r with
    | Except.ok pts =>
      (Except.ok (),
        { s' with
          frameVideoReady := some pts
          statistics := { s'.statistics with
            numVideoFramesDecoded := s'.statistics.numVideoFramesDecoded + 1 } })
    | Except.error e =>
      if e.needs_data then (Except.ok (), s') else (Except.error e, s')

/-- The audio poll of `get_next_frame` (`player.rs` lines 357-366). -/
def MediaPlayer.pollAudio (s : PlayerState) :
    Except FFmpegError Unit × PlayerState :=
  match s.decoderAudio with
  | none => (Except.ok (), s)
  | some d =>
    let (r, d') := d.nextDecode
    let s' := { s with decoderAudio := some d' }
    match r with
    | Except.ok pts =>
      (Except.ok (),
        { s' with
          frameAudioReady := some pts
          statistics := { s'.statistics with
            numAudioFramesDecoded := s'.statistics.numAudioFramesDecoded + 1 } })
    | Except.error e =>
      if e.needs_data then (Except.ok (), s') else (Except.error e, s')

/-- The subtitle poll of `get_next_frame` (`player.rs` lines 368-378). -/
def MediaPlayer.pollSubtitle (s : PlayerState) :
    Except FFmpegError Unit × PlayerState :=
  match s.decoderSubtitle with
  | none => (Except.ok (), s)
  | some d =>
    let (r, d') := d.nextDecode
    let s' := { s with decoderSubtitle := some d' }
    match r with
    | Except.ok pts =>
      (Except.ok (),
        { s' with
          frameSubtitleReady := some pts
          statistics := { s'.statistics with
            numSubtitleFramesDecoded := s'.statistics.numSubtitleFramesDecoded + 1 } })
    | Except.error e =>
      if e.needs_data then (Except.ok (), s') else (Except.error e, s')

/-- `MediaPlayer::get_next_frame` (`player.rs` lines 334-388): return a ready
frame if one exists; otherwise poll video, audio, subtitle once each (a
non-"needs data" decode error propagates immediately), then retry the ready
selection; with still nothing ready, fail with `EAGAIN`. -/
def MediaPlayer.get_next_frame (s : PlayerState) :
    Except FFmpegError DecodedFrame × PlayerState :=
  match MediaPlayer.get_ready_frame s with
  | (some f, s1) => (Except.ok f, s1)
  | (none, s1) =>
    match MediaPlayer.pollVideo s1 with
    | (Except.error e, s2) => (Except.error e, s2)
    | (Except.ok _, s2) =>
      match MediaPlayer.pollAudio s2 with
      | (Except.error e, s3) => (Except.error e, s3)
      | (Except.ok _, s3) =>
        match MediaPlayer.pollSubtitle s3 with
        | (Except.error e, s4) => (Except.error e, s4)
        | (Except.ok _, s4) =>
          match MediaPlayer.get_ready_frame s4 with
          | (some f, s5) => (Except.ok f, s5)
          | (none, s5) => (Except.error ⟨eagainErrno⟩, s5)

/-- The subtitle branch of `dispatch_packet` (`player.rs` lines 464-471). -/
def MediaPlayer.dispatchPacketSubtitle (s : PlayerState) :
    Except FFmpegError Unit × PlayerState :=
  match s.decoderSubtitle with
  | some d =>
    if s.packetStreamIndex = d.streamIndex then
      let (r, d') := d.nextWrite
      (r, { s with decoderSubtitle := some d' })
    else (Except.ok (), s)
  | none => (Except.ok (), s)

/-- The audio branch of `dispatch_packet` (`player.rs` lines 455-462). -/
def MediaPlayer.dispatchPacketAudio (s : PlayerState) :
    Except FFmpegError Unit × PlayerState :=
  match s.decoderAudio with
  | some d =>
    if s.packetStreamIndex = d.streamIndex then
      let (r, d') := d.nextWrite
      (r, { s with decoderAudio := some d' })
    else MediaPlayer.dispatchPacketSubtitle s
  | none => MediaPlayer.dispatchPacketSubtitle s

/-- `MediaPlayer::dispatch_packet` (`player.rs` lines 441-477): a no-op once
`end_of_packet_stream` is set; otherwise the packet is written to the first
decoder whose stream index matches, and a packet matching no kept stream is
silently dropped. -/
def MediaPlayer.dispatch_packet (s : PlayerState) :
    Except FFmpegError Unit × PlayerState :=
  if s.endOfPacketStream then (Except.ok (), s)
  else
    match s.decoderVideo with
    | some d =>
      if s.packetStreamIndex = d.streamIndex then
        let (r, d') := d.nextWrite
        (r, { s with decoderVideo := some d' })
      else MediaPlayer.dispatchPacketAudio s
    | none => MediaPlayer.dispatchPacketAudio s

/-- `MediaPlayer::flush` (`player.rs` lines 479-497): flush the video, audio
and subtitle decoders in that order, each through `?` so the first error
propagates. -/
def MediaPlayer.flush (s : PlayerState) :
    Except FFmpegError Unit × PlayerState :=
  let (rv, s1) :=
    match s.decoderVideo with
    | none => (Except.ok (), s)
    | some d =>
      let (r, d') := d.nextFlush
      (r, { s with decoderVideo := some d' })
  match rv with
  | Except.error e => (Except.error e, s1)
  | Except.ok _ =>
    let (ra, s2) :=
      match s1.decoderAudio with
      | none => (Except.ok (), s1)
      | some d =>
        let (r, d') := d.nextFlush
        (r, { s1 with decoderAudio := some d' })
    match ra with
    | Except.error e => (Except.error e, s2)
    | Except.ok _ =>
      match s2.decoderSubtitle with
      | none => (Except.ok (), s2)
      | some d =>
        let (r, d') := d.nextFlush
        (r, { s2 with decoderSubtitle := some d' })

/-- The state update of a successful `read_next_packet` (`player.rs` lines
426-439): the packet is replaced by the newly read one and
`packet_read_total` is bumped.  The ghost event list records the read. -/
def MediaPlayer.recordReadOk (s : PlayerState) (idx : Nat) : PlayerState :=
  { s with
    packetStreamIndex := idx
    statistics := { s.statistics with
      packetReadTotal := s.statistics.packetReadTotal + 1 }
    events := s.events ++ [PlayerEvent.readOk idx] }

/-- The `loop` body of `MediaPlayer::process_next_frame` (`player.rs` lines
296-321), with explicit fuel.  Every iteration that continues the loop pops
one entry off the read oracle, so `readResults.length + 2` fuel (what
`process_next_frame` passes) can never run out; the out-of-fuel base case
returns a fatal error and is unreachable for that fuel.  Branches, in source
order: a produced frame breaks the loop; a "needs data"/EOF error returns
`EndOfStream` when `end_of_packet_stream` is already set; any other error is
fatal; otherwise one packet is read — EOF sets `end_of_packet_stream`,
flushes all decoders once and continues, a read error is fatal, and a read
packet is dispatched before continuing. -/
def MediaPlayer.processLoop :
    Nat → PlayerState → Except PlayerError DecodedFrame × PlayerState
  | 0, s => (Except.error (PlayerError.ffmpeg ⟨averrorUnknownErrno⟩), s)
  | fuel + 1, s =>
    match MediaPlayer.get_next_frame s with
    | (Except.ok f, s1) => (Except.ok f, s1)
    | (Except.error e, s1) =>
      if e.needs_data || e.is_eof then
        if s1.endOfPacketStream then
          (Except.error PlayerError.endOfStream, s1)
        else
          match s1.readResults with
          | [] =>
            (Except.error (PlayerError.ffmpeg ⟨averrorUnknownErrno⟩), s1)
          | r :: rest =>
            let s2 := { s1 with readResults := rest }
            match r with
            | Except.error re =>
              if re.is_eof then
                let s3 := { s2 with
                  endOfPacketStream := true
                  events := s2.events ++
                    [PlayerEvent.readEof, PlayerEvent.flushedDecoders] }
                match MediaPlayer.flush s3 with
                | (Except.ok _, s4) => MediaPlayer.processLoop fuel s4
                | (Except.error fe, s4) =>
                  (Except.error (PlayerError.ffmpeg fe), s4)
              else (Except.error (PlayerError.ffmpeg re), s2)
            | Except.ok idx =>
              let s3 := MediaPlayer.recordReadOk s2 idx
              match MediaPlayer.dispatch_packet s3 with
              | (Except.ok _, s4) => MediaPlayer.processLoop fuel s4
              | (Except.error de, s4) =>
                (Except.error (PlayerError.ffmpeg de), s4)
      else (Except.error (PlayerError.ffmpeg e), s1)

/-- `MediaPlayer::process_next_frame` (`player.rs` lines 294-325): run the
loop; on success bump `frames_decoded_total`. -/
def MediaPlayer.process_next_frame (s : PlayerState) :
    Except PlayerError DecodedFrame × PlayerState :=
  match MediaPlayer.processLoop (s.readResults.length + 2) s with
  | (Except.ok f, s') =>
    (Except.ok f,
      { s' with statistics := { s'.statistics with
          framesDecodedTotal := s'.statistics.framesDecodedTotal + 1 } })
  | (Except.error e, s') => (Except.error e, s')

/-- `MediaPlayer::play` (`player.rs` lines 262-273), with the input source's
answer to `play()` as an oracle: an error with errno `-38` becomes a no-op
success, any other error is wrapped and returned. -/
def MediaPlayer.play (sourceResult : Except FFmpegError Unit) :
    Except PlayerError Unit :=
  match sourceResult with
  | Except.ok _ => Except.ok ()
  | Except.error err =>
    if err.errno = enosysErrno then Except.ok ()
    else Except.error (PlayerError.ffmpeg err)

/-- `MediaPlayer::pause` (`player.rs` lines 279-290), same shape as `play`. -/
def MediaPlayer.pause (sourceResult : Except FFmpegError Unit) :
    Except PlayerError Unit :=
  match sourceResult with
  | Except.ok _ => Except.ok ()
  | Except.error err =>
    if err.errno = enosysErrno then Except.ok ()
    else Except.error (PlayerError.ffmpeg err)

/-- `MediaPlayerBuilder::build` (`player.rs` lines 121-207), over the results
of the three `find_best_stream` calls (the selected stream index per kind, or
`none`) and oracles for the three decoder constructions
(`open_video_stream` / `open_stream`).  All-`none` returns
`NoAvailableStreams` before any decoder is constructed; otherwise each
selected stream's decoder is opened (errors propagate) and the player state
is assembled with empty ready markers, `end_of_packet_stream = false` and
zeroed statistics. -/
def MediaPlayerBuilder.build
    (videoStream audioStream subtitleStream : Option Nat)
    (openVideo openAudio openSubtitle : Nat → Except FFmpegError DecoderSlot)
    (reads : List (Except FFmpegError Nat)) :
    Except PlayerError PlayerState :=
  if videoStream = none ∧ audioStream = none ∧ subtitleStream = none then
    Except.error PlayerError.noAvailableStreams
  else
    let buildSlot (stream : Option Nat)
        (openFn : Nat → Except FFmpegError DecoderSlot) :
        Except FFmpegError (Option DecoderSlot) :=
      match stream with
      | none => Except.ok none
      | some idx =>
        match openFn idx with
        | Except.ok d => Except.ok (some d)
        | Except.error e => Except.error e
    match buildSlot videoStream openVideo with
    | Except.error e => Except.error (PlayerError.ffmpeg e)
    | Except.ok dv =>
      match buildSlot audioStream openAudio with
      | Except.error e => Except.error (PlayerError.ffmpeg e)
      | Except.ok da =>
        match buildSlot subtitleStream openSubtitle with
        | Except.error e => Except.error (PlayerError.ffmpeg e)
        | Except.ok ds =>
          Except.ok
            { decoderVideo := dv
              decoderAudio := da
              decoderSubtitle := ds
              packetStreamIndex := 0
              frameVideoReady := none
              frameAudioReady := none
              frameSubtitleReady := none
              endOfPacketStream := false
              statistics := {}
              readResults := reads
              events := [] }

/-! ## Decoder lifecycle (`codec/mod.rs`, `codec/subtitle.rs`)

The native `AVCodecContext` is the external collaborator here.  Its packet-in
/ frame-out contract is the one the spec states in §6: `receive_frame`
distinguishes "needs more input" from hard errors and from end-of-stream, and
end-of-stream is produced only in draining mode, which a codec enters when a
drain (flush) packet is sent to it. -/

/-- Modelled from the spec (§6): the state of a native libav codec context as
seen through `avcodec_send_packet` / `avcodec_receive_frame` — a queue of
decoded frames (by `pts`) awaiting delivery, and whether the codec has been
put into draining mode by a drain packet. -/
structure AVCodecCtx where
  buffered : List Int
  draining : Bool
deriving Repr, DecidableEq

/-- Modelled from the spec (§6): `avcodec_receive_frame` hands out the next
buffered frame; with nothing buffered it reports `AVERROR(EAGAIN)` ("needs
more input"), or `AVERROR_EOF` once the codec is draining. -/
def AVCodecCtx.receive_frame (c : AVCodecCtx) :
    Except FFmpegError Int × AVCodecCtx :=
  match c.buffered with
  | pts :: rest => (Except.ok pts, { c with buffered := rest })
  | [] =>
    if c.draining then (Except.error ⟨averrorEofErrno⟩, c)
    else (Except.error ⟨eagainErrno⟩, c)

/-- `BaseDecoder` (`codec/mod.rs` lines 108-112) as the pair of its codec
context and its `is_open` flag. -/
structure BaseDecoder where
  ctx : AVCodecCtx
  is_open : Bool
deriving Repr, DecidableEq

/-- The default `Decoder::flush` (`codec/mod.rs` lines 82-84), which
`BaseDecoder` inherits: it returns `Ok(())` and touches nothing — in
particular it never sends a drain packet to the codec context. -/
def BaseDecoder.flush (d : BaseDecoder) : Except FFmpegError Unit × BaseDecoder :=
  (Except.ok (), d)

/-- `BaseDecoder::decode` (`codec/mod.rs` lines 181-186):
`avcodec_receive_frame` into the caller's frame (the time-base copy of
`apply_context_to_frame` does not affect the modelled fields). -/
def BaseDecoder.decode (d : BaseDecoder) :
    Except FFmpegError Int × BaseDecoder :=
  let (r, c') := d.ctx.receive_frame
  (r, { d with ctx := c' })

/-! ## Subtitle decoder (`codec/subtitle.rs`) -/

/-- An `ffmpeg::AVSubtitle` as far as the claims need it: an opaque decoded
subtitle value. -/
structure AVSubtitle where
  pts : Int
deriving Repr, DecidableEq

/-- `SubtitleDecoder` (`codec/subtitle.rs` lines 10-14): the inner
`BaseDecoder` is irrelevant to the claims; the modelled state is the
`ready_subtitle` slot. -/
structure SubtitleDecoder where
  ready_subtitle : Option AVSubtitle
deriving Repr, DecidableEq

/-- The possible outcomes of `SubtitleDecoder::write_packet`: the Rust
function either returns a `Result` or trips the `debug_assert!` at
`codec/subtitle.rs` lines 68-71 (a panic).  `debug_assert!` only runs when
the build carries debug assertions, so the embedding takes that switch as a
parameter. -/
inductive SubtitleWriteResult
  | ok (d : SubtitleDecoder)
  | ffmpegError (e : FFmpegError)
  | assertionPanic
deriving Repr, DecidableEq

/-- `SubtitleDecoder::write_packet` (`codec/subtitle.rs` lines 45-76), with
the `avcodec_decode_subtitle2` call as an oracle: an error return propagates;
`got_sub_ptr == 0` leaves the slot alone; a decoded subtitle is stored in the
slot — after the `debug_assert!(self.ready_subtitle.is_none())`, which
panics when debug assertions are compiled in (`debugAssertions = true`) and
is compiled out otherwise, letting the store silently overwrite the slot. -/
def SubtitleDecoder.write_packet (debugAssertions : Bool) (d : SubtitleDecoder)
    (decodeOutcome : Except FFmpegError (Option AVSubtitle)) :
    SubtitleWriteResult :=
  match decodeOutcome with
  | Except.error e => SubtitleWriteResult.ffmpegError e
  | Except.ok none => SubtitleWriteResult.ok d
  | Except.ok (some sub) =>
    if debugAssertions ∧ d.ready_subtitle ≠ none then
      SubtitleWriteResult.assertionPanic
    else
      SubtitleWriteResult.ok { ready_subtitle := some sub }

/-- `SubtitleDecoder::decode` (`codec/subtitle.rs` lines 78-84): `take` the
ready slot into the output frame, or fail with `AVERROR(EAGAIN)` when the
slot is empty. -/
def SubtitleDecoder.decode (d : SubtitleDecoder) :
    Except FFmpegError AVSubtitle × SubtitleDecoder :=
  match d.ready_subtitle with
  | none => (Except.error ⟨eagainErrno⟩, d)
  | some sub => (Except.ok sub, { ready_subtitle := none })

/-! ## Accelerator configuration (`accelerator.rs`) -/

/-- The `hw_platform_flags` module (`accelerator.rs` lines 37-41). -/
def hwPlatformFlagsWindows : Nat := 1

/-- `hw_platform_flags::LINUX` (`accelerator.rs` line 39). -/
def hwPlatformFlagsLinux : Nat := 2

/-- `hw_platform_flags::MACOS` (`accelerator.rs` line 40). -/
def hwPlatformFlagsMacos : Nat := 4

/-- The `Accelerator` enum (`accelerator.rs` lines 45-92). -/
inductive Accelerator
  | vaapi
  | vdpau
  | cuda
  | qsv
  | vulkan
  | dxva2
  | d3d11
  | d3d12
  | videotoolbox
deriving Repr, DecidableEq

/-- `Accelerator::platform_flags` (`accelerator.rs` lines 112-124). -/
def Accelerator.platform_flags : Accelerator → Nat
  | Accelerator.vaapi => hwPlatformFlagsLinux ||| hwPlatformFlagsWindows
  | Accelerator.vdpau => hwPlatformFlagsLinux
  | Accelerator.cuda => hwPlatformFlagsLinux ||| hwPlatformFlagsWindows
  | Accelerator.qsv => hwPlatformFlagsLinux ||| hwPlatformFlagsWindows
  | Accelerator.vulkan => hwPlatformFlagsLinux ||| hwPlatformFlagsWindows
  | Accelerator.dxva2 => hwPlatformFlagsWindows
  | Accelerator.d3d11 => hwPlatformFlagsWindows
  | Accelerator.d3d12 => hwPlatformFlagsWindows
  | Accelerator.videotoolbox => hwPlatformFlagsMacos

/-- `Accelerator::to_name` (`accelerator.rs` lines 126-138). -/
def Accelerator.to_name : Accelerator → String
  | Accelerator.vaapi => "vaapi"
  | Accelerator.vdpau => "vdpau"
  | Accelerator.cuda => "cuda"
  | Accelerator.qsv => "qsv"
  | Accelerator.vulkan => "vulkan"
  | Accelerator.dxva2 => "dxva2"
  | Accelerator.d3d11 => "d3d11"
  | Accelerator.d3d12 => "d3d12"
  | Accelerator.videotoolbox => "videotoolbox"

/-- `AcceleratorConfig` (`accelerator.rs` lines 163-166). -/
structure AcceleratorConfig where
  affinity : List Accelerator
  target_device : Option String
deriving Repr, DecidableEq

/-- `AcceleratorConfig::accelerators` (`accelerator.rs` lines 183-185). -/
def AcceleratorConfig.accelerators (cfg : AcceleratorConfig) :
    List Accelerator :=
  cfg.affinity

/-- The inner loop of `Vec::dedup` as `set_accelerators` uses it
(`accelerator.rs` line 224): drop each element equal to the retained element
before it — only consecutive repeats are removed. -/
def dedupTail {α : Type} [DecidableEq α] (prev : α) : List α → List α
  | [] => []
  | b :: rest =>
    if b = prev then dedupTail prev rest else b :: dedupTail b rest

/-- `Vec::dedup`: removes consecutive repeated elements, keeping the first of
each run. -/
def rustDedup {α : Type} [DecidableEq α] : List α → List α
  | [] => []
  | a :: rest => a :: dedupTail a rest

/-- `AcceleratorConfig::set_accelerators` (`accelerator.rs` lines 196-226).
The `cfg!(target_os = ...)` platform flag is a parameter (`0` for a platform
that is none of windows/linux/macos).  Returns the new configuration and
whether the missing-hardware-acceleration warning was logged; the Rust
for-loop that clears `warn_missing_hw_accel` on the first valid entry is
equivalently the check that no entry is valid for the platform.  The list is
then `dedup`ed and stored unconditionally. -/
def AcceleratorConfig.set_accelerators (targetPlatform : Nat)
    (cfg : AcceleratorConfig) (accelerators : List Accelerator) :
    AcceleratorConfig × Bool :=
  let warnMissingHwAccel :=
    targetPlatform ≠ 0 ∧
      ∀ a ∈ accelerators, a.platform_flags &&& targetPlatform = 0
  ({ cfg with affinity := rustDedup accelerators },
    decide warnMissingHwAccel)

/-! ### Spec-side selection (for the refinement claim C2) -/

/-- The streams with a ready (undelivered) frame, in the fixed priority
order video, audio, subtitle, each with its ready timestamp.  Spec-side
helper, used only to state the C2 comparison. -/
def readyCandidates (s : PlayerState) : List (MediaKind × Int) :=
  (match s.frameVideoReady with
    | some t => [(MediaKind.video, t)]
    | none => []) ++
  (match s.frameAudioReady with
    | some t => [(MediaKind.audio, t)]
    | none => []) ++
  (match s.frameSubtitleReady with
    | some t => [(MediaKind.subtitle, t)]
    | none => [])

/-- Modelled from the spec's words (§4.4 step 1), for comparison with
`get_ready_frame`: among the ready streams select the one with the smallest
presentation timestamp, ties broken by the fixed priority video, audio,
subtitle (the candidate list is in priority order and the fold keeps the
earlier candidate on ties); `none` when no stream is ready. -/
def selectReadySpec (s : PlayerState) : Option (MediaKind × Int) :=
  match readyCandidates s with
  | [] => none
  | c :: cs =>
    some (cs.foldl (fun best cand => if cand.2 < best.2 then cand else best) c)

/-- Clear one stream's ready marker (what delivering that stream's frame
does to the ready state). -/
def clearReady : MediaKind → PlayerState → PlayerState
  | MediaKind.video, s => { s with frameVideoReady := none }
  | MediaKind.audio, s => { s with frameAudioReady := none }
  | MediaKind.subtitle, s => { s with frameSubtitleReady := none }

/-! ### Ghost-trace predicates (for the temporal claim C3) -/

/-- How many times `MediaPlayer::flush` was invoked, per the ghost trace. -/
def flushCount (events : List PlayerEvent) : Nat :=
  events.count PlayerEvent.flushedDecoders

/-- Whether an event is a packet read from the source (successful or the
end-of-input read). -/
def isReadEvent : PlayerEvent → Bool
  | PlayerEvent.readOk _ => true
  | PlayerEvent.readEof => true
  | PlayerEvent.flushedDecoders => false

/-- No packet is read from the source after the decoders were flushed
(equivalently, after `end_of_packet_stream` was set — the two happen in the
same loop iteration). -/
def noReadAfterFlush : List PlayerEvent → Bool
  | [] => true
  | PlayerEvent.flushedDecoders :: rest => rest.all (fun e => !isReadEvent e)
  | _ :: rest => noReadAfterFlush rest

/-- Every `flushedDecoders` event is immediately preceded by the
end-of-input read (`prev` carries the event before the current suffix). -/
def flushPrecededAux : Option PlayerEvent → List PlayerEvent → Bool
  | _, [] => true
  | prev, e :: rest =>
    (decide (e = PlayerEvent.flushedDecoders →
        prev = some PlayerEvent.readEof)) &&
      flushPrecededAux (some e) rest

/-- The decoders are flushed only directly after the source reports
end-of-input. -/
def flushPreceded (events : List PlayerEvent) : Bool :=
  flushPrecededAux none events

/-- No stream holds a ready (undelivered) frame. -/
def readyNone (s : PlayerState) : Bool :=
  s.frameVideoReady.isNone && s.frameAudioReady.isNone &&
    s.frameSubtitleReady.isNone

/-- A decoder (if present) will answer its next `decode` with "needs more
input" or end-of-stream — it yields no further frame. -/
def slotDry : Option DecoderSlot → Bool
  | none => true
  | some d =>
    match d.decodeResults with
    | Except.error e :: _ => e.needs_data || e.is_eof
    | _ => false

/-- No active decoder yields a further frame on its next poll. -/
def decodersDry (s : PlayerState) : Bool :=
  slotDry s.decoderVideo && slotDry s.decoderAudio && slotDry s.decoderSubtitle

/-- The temporal invariant the C3 claims rest on: the flush of the decoders
happened at most once, only directly after the end-of-input read, no packet
was read after it, and it cannot have happened yet while
`end_of_packet_stream` is still unset. -/
def eventInv (s : PlayerState) : Prop :=
  flushPreceded s.events = true ∧
  noReadAfterFlush s.events = true ∧
  flushCount s.events ≤ 1 ∧
  (s.endOfPacketStream = false → flushCount s.events = 0)

/-- Iterate `process_next_frame` (the caller's poll loop). -/
def runCalls : Nat → PlayerState → PlayerState
  | 0, s => s
  | n + 1, s => runCalls n (MediaPlayer.process_next_frame s).2

/-! ### Concrete states for counterexamples and witnesses -/

/-- An empty player scaffold: no decoders, nothing ready, no reads. -/
def emptyPlayer : PlayerState :=
  { decoderVideo := none
    decoderAudio := none
    decoderSubtitle := none
    packetStreamIndex := 0
    frameVideoReady := none
    frameAudioReady := none
    frameSubtitleReady := none
    endOfPacketStream := false
    statistics := {}
    readResults := []
    events := [] }

/-- C2 counterexample state: the video stream has a ready frame stamped
exactly `i64::MAX`. -/
def c2CexState : PlayerState :=
  { emptyPlayer with frameVideoReady := some i64Max }

/-- C2 witness state: video ready at pts 7, audio ready at pts 3. -/
def c2WitnessState : PlayerState :=
  { emptyPlayer with frameVideoReady := some 7, frameAudioReady := some 3 }

/-- C1 counterexample initial state: a video decoder that decodes a frame at
pts 10 and then runs dry, and an audio decoder that needs more data once and
then decodes a frame at pts 5. -/
def c1CexState : PlayerState :=
  { emptyPlayer with
    decoderVideo := some
      { streamIndex := 0
        decodeResults := [Except.ok 10, Except.error ⟨eagainErrno⟩]
        writeResults := []
        flushResults := [] }
    decoderAudio := some
      { streamIndex := 1
        decodeResults := [Except.error ⟨eagainErrno⟩, Except.ok 5]
        writeResults := []
        flushResults := [] } }

/-- C1 witness state: both streams become ready in one call (video at 10,
audio at 20), so after the call delivers video the audio frame is still
buffered. -/
def c1WitnessState : PlayerState :=
  { emptyPlayer with
    decoderVideo := some
      { streamIndex := 0
        decodeResults := [Except.ok 10]
        writeResults := []
        flushResults := [] }
    decoderAudio := some
      { streamIndex := 1
        decodeResults := [Except.ok 20]
        writeResults := []
        flushResults := [] } }

/-- C3 witness state: an audio-only player whose decoder keeps needing data
and whose source reports end-of-input on the first read. -/
def c3WitnessState : PlayerState :=
  { emptyPlayer with
    decoderAudio := some
      { streamIndex := 0
        decodeResults :=
          [Except.error ⟨eagainErrno⟩, Except.error ⟨eagainErrno⟩,
            Except.error ⟨eagainErrno⟩]
        writeResults := []
        flushResults := [Except.ok ()] }
    readResults := [Except.error ⟨averrorEofErrno⟩] }

/-- A decoder slot for witnesses: stream 0, one decodable frame. -/
def witnessSlot : DecoderSlot :=
  { streamIndex := 0
    decodeResults := [Except.ok 0]
    writeResults := []
    flushResults := [] }

/-- The player state built by the C10 witness: only a video decoder. -/
def c10WitnessState : PlayerState :=
  { decoderVideo := some witnessSlot
    decoderAudio := none
    decoderSubtitle := none
    packetStreamIndex := 0
    frameVideoReady := none
    frameAudioReady := none
    frameSubtitleReady := none
    endOfPacketStream := false
    statistics := {}
    readResults := []
    events := [] }

end LibavPlayer

namespace WgpuPlayer

open LibavPlayer (FFmpegError Accelerator)

/-- The codec an attempt ends up using (`wgpu-player/src/codec.rs` lines
323-338): the base codec passed in, or the variant found by name when the
base codec advertises no hardware config for the target accelerator. -/
inductive CodecRef
  | base (name : String)
  | variant (name : String)
deriving Repr, DecidableEq

/-- `VideoDecoder` (`wgpu-player/src/codec.rs` lines 168-171) as far as the
claims observe it: the codec it wraps and the `accelerator` field that
`VideoDecoder::accelerator()` (lines 220-222) returns.  `swPixFmt` models the
`ctx.sw_pix_fmt` field read by `pix_fmt()` (lines 226-229). -/
structure VideoDecoder where
  codec : CodecRef
  accelerator : Option Accelerator
  swPixFmt : Int
deriving Repr, DecidableEq

/-- The pixel formats `VideoDecoder::pix_fmt` (`wgpu-player/src/codec.rs`
lines 224-244) can return: one fixed hardware format per accelerator, or the
context's software format. -/
inductive PixFmt
  | vaapi
  | vdpau
  | cuda
  | qsv
  | vulkan
  | dxva2Vld
  | d3d11
  | d3d12
  | videotoolbox
  | sw (v : Int)
deriving Repr, DecidableEq

/-- The accelerator-to-pixel-format match of `VideoDecoder::pix_fmt`
(`wgpu-player/src/codec.rs` lines 233-243). -/
def hwPixFmt : Accelerator → PixFmt
  | Accelerator.vaapi => PixFmt.vaapi
  | Accelerator.vdpau => PixFmt.vdpau
  | Accelerator.cuda => PixFmt.cuda
  | Accelerator.qsv => PixFmt.qsv
  | Accelerator.vulkan => PixFmt.vulkan
  | Accelerator.dxva2 => PixFmt.dxva2Vld
  | Accelerator.d3d11 => PixFmt.d3d11
  | Accelerator.d3d12 => PixFmt.d3d12
  | Accelerator.videotoolbox => PixFmt.videotoolbox

/-- `VideoDecoder::pix_fmt` (`wgpu-player/src/codec.rs` lines 224-244): with
no accelerator recorded, the context's `sw_pix_fmt`; otherwise the fixed
pixel format of the recorded accelerator. -/
def VideoDecoder.pix_fmt (d : VideoDecoder) : PixFmt :=
  match d.accelerator with
  | none => PixFmt.sw d.swPixFmt
  | some accelerator => hwPixFmt accelerator

/-- The libav environment the hardware-fallback construction talks to:
whether `find_accelerator_config` finds a hardware config entry for the base
codec and an accelerator (`wgpu-player/src/codec.rs` lines 375-401), whether
`find_decoder_by_name` finds a codec of a given name (lines 11-19), the
result of `av_hwdevice_ctx_create` per accelerator (lines 345-354), and the
results of `copy_codec_params` and `open` per attempted decoder
(lines 204-207, 211-215).  `swPixFmt` is the `sw_pix_fmt` the opened context
ends up with. -/
structure HwEnv where
  hasHwConfig : Accelerator → Bool
  decoderByName : String → Bool
  hwDeviceCreate : Accelerator → Except FFmpegError Unit
  copyParamsResult : CodecRef → Except FFmpegError Unit
  openResult : VideoDecoder → Except FFmpegError Unit
  swPixFmt : Int

/-- `format_codec_name_with_accelerator` (`wgpu-player/src/codec.rs` lines
366-373): the base codec's name suffixed with `_` and the accelerator's
short name. -/
def format_codec_name_with_accelerator (codecName : String)
    (accelerator : Accelerator) : String :=
  codecName ++ "_" ++ accelerator.to_name

/-- `create_accelerated_decoder` (`wgpu-player/src/codec.rs` lines 323-364):
with no hardware-config entry, look up the name variant — absent variant
returns `Ok(None)` (skip); then create the decoder, and on the
hardware-config path create the device context — any
`av_hwdevice_ctx_create` error propagates via `?` — and record the
accelerator.  On the variant path the `accelerator` field is never set. -/
def create_accelerated_decoder (env : HwEnv) (codecName : String)
    (target_accelerator : Accelerator) :
    Except FFmpegError (Option VideoDecoder) :=
  let hwConfigFound := env.hasHwConfig target_accelerator
  let codec? : Option CodecRef :=
    if hwConfigFound then some (CodecRef.base codecName)
    else
      let fullCodecName :=
        format_codec_name_with_accelerator codecName target_accelerator
      if env.decoderByName fullCodecName then
        some (CodecRef.variant fullCodecName)
      else
        none
  match codec? with
  | none => Except.ok none
  | some codec =>
    let decoder : VideoDecoder :=
      { codec := codec, accelerator := none, swPixFmt := env.swPixFmt }
    if hwConfigFound then
      match env.hwDeviceCreate target_accelerator with
      | Except.error e => Except.error e
      | Except.ok _ =>
        Except.ok (some { decoder with accelerator := some target_accelerator })
    else
      Except.ok (some decoder)

/-- The copy-parameters-then-open tail of each attempt in
`VideoDecoder::open` (`wgpu-player/src/codec.rs` lines 204-207 and 211-215):
`copy_codec_params` runs only when codec parameters were supplied; both
errors propagate via `?`. -/
def finishOpen (env : HwEnv) (hasParams : Bool) (decoder : VideoDecoder) :
    Except FFmpegError VideoDecoder :=
  let copyResult :=
    if hasParams then env.copyParamsResult decoder.codec else Except.ok ()
  match copyResult with
  | Except.error e => Except.error e
  | Except.ok _ =>
    match env.openResult decoder with
    | Except.error e => Except.error e
    | Except.ok _ => Except.ok decoder

/-- The accelerator loop of `VideoDecoder::open` (`wgpu-player/src/codec.rs`
lines 187-217), followed by the software fallback (lines 211-217): each
accelerator in affinity order is tried with `create_accelerated_decoder` —
`Ok(None)` continues to the next, an error returns it, and a created decoder
has parameters copied and is opened, both errors propagating.  When the list
is exhausted a plain software decoder on the base codec is built the same
way. -/
def VideoDecoder.openWithConfig (env : HwEnv) (codecName : String)
    (hasParams : Bool) : List Accelerator → Except FFmpegError VideoDecoder
  | [] =>
    finishOpen env hasParams
      { codec := CodecRef.base codecName, accelerator := none,
        swPixFmt := env.swPixFmt }
  | accelerator :: rest =>
    match create_accelerated_decoder env codecName accelerator with
    | Except.error e => Except.error e
    | Except.ok none => VideoDecoder.openWithConfig env codecName hasParams rest
    | Except.ok (some decoder) => finishOpen env hasParams decoder

/-- C4 counterexample environment: the base codec advertises hardware
configs for both `vaapi` and `cuda`; creating the `vaapi` device context
fails with `AVERROR(ENOMEM) = -12` (a resource/availability error) while
`cuda` works; parameter copy and open always succeed. -/
def c4Env : HwEnv :=
  { hasHwConfig := fun a =>
      match a with
      | Accelerator.vaapi => true
      | Accelerator.cuda => true
      | _ => false
    decoderByName := fun _ => false
    hwDeviceCreate := fun a =>
      match a with
      | Accelerator.vaapi => Except.error ⟨-12⟩
      | _ => Except.ok ()
    copyParamsResult := fun _ => Except.ok ()
    openResult := fun _ => Except.ok ()
    swPixFmt := 0 }

/-- C6 counterexample environment: no accelerator has a native
hardware-config entry for the base codec, but the codec variant named
`h264_cuda` exists; device creation, parameter copy and open all succeed. -/
def c6Env : HwEnv :=
  { hasHwConfig := fun _ => false
    decoderByName := fun n => n == "h264_cuda"
    hwDeviceCreate := fun _ => Except.ok ()
    copyParamsResult := fun _ => Except.ok ()
    openResult := fun _ => Except.ok ()
    swPixFmt := 0 }

end WgpuPlayer

namespace LibavPlayer

/-! ## Theorems -/

/-- **C9.**  For every call to `MediaPlayer::play` or `MediaPlayer::pause`, a
"not supported" error (`AVERROR(ENOSYS)`, errno `-38`) returned by the input
source is converted into a no-op success, and every other source error is
propagated unchanged to the caller. -/
theorem play_pause_not_supported_is_noop (e : FFmpegError)
    (h : e.errno ≠ enosysErrno) :
    MediaPlayer.play (Except.ok ()) = Except.ok () ∧
    MediaPlayer.pause (Except.ok ()) = Except.ok () ∧
    MediaPlayer.play (Except.error ⟨enosysErrno⟩) = Except.ok () ∧
    MediaPlayer.pause (Except.error ⟨enosysErrno⟩) = Except.ok () ∧
    MediaPlayer.play (Except.error e) = Except.error (PlayerError.ffmpeg e) ∧
    MediaPlayer.pause (Except.error e) = Except.error (PlayerError.ffmpeg e) := by
  refine ⟨rfl, rfl, rfl, rfl, ?_, ?_⟩ <;>
    simp [MediaPlayer.play, MediaPlayer.pause, h]

/-- Witness for C9 at the I/O error `AVERROR(EIO) = -5`. -/
theorem play_pause_not_supported_is_noop_witness :
    MediaPlayer.play (Except.error ⟨-5⟩) =
      Except.error (PlayerError.ffmpeg ⟨-5⟩) ∧
    MediaPlayer.play (Except.error ⟨enosysErrno⟩) = Except.ok () :=
  ⟨(play_pause_not_supported_is_noop ⟨-5⟩ (by decide)).2.2.2.2.1,
    (play_pause_not_supported_is_noop ⟨-5⟩ (by decide)).2.2.1⟩

/-- **C10.**  `MediaPlayerBuilder::build` with no stream of any kind selected
returns `NoAvailableStreams` whatever the decoder-construction oracles would
do (so no decoder is constructed); and a successful build has a decoder of a
kind only if a stream of that kind was selected, with at least one decoder
present. -/
theorem build_requires_and_reflects_streams :
    (∀ (openVideo openAudio openSubtitle :
          Nat → Except FFmpegError DecoderSlot)
        (reads : List (Except FFmpegError Nat)),
      MediaPlayerBuilder.build none none none
          openVideo openAudio openSubtitle reads =
        Except.error PlayerError.noAvailableStreams) ∧
    (∀ (videoStream audioStream subtitleStream : Option Nat)
        (openVideo openAudio openSubtitle :
          Nat → Except FFmpegError DecoderSlot)
        (reads : List (Except FFmpegError Nat)) (p : PlayerState),
      MediaPlayerBuilder.build videoStream audioStream subtitleStream
          openVideo openAudio openSubtitle reads = Except.ok p →
      (p.decoderVideo.isSome → videoStream.isSome) ∧
      (p.decoderAudio.isSome → audioStream.isSome) ∧
      (p.decoderSubtitle.isSome → subtitleStream.isSome) ∧
      (p.decoderVideo.isSome ∨ p.decoderAudio.isSome ∨
        p.decoderSubtitle.isSome)) := by
  constructor
  · intro openVideo openAudio openSubtitle reads
    simp [MediaPlayerBuilder.build]
  · intro videoStream audioStream subtitleStream
      openVideo openAudio openSubtitle reads p h
    unfold MediaPlayerBuilder.build at h
    by_cases hall :
        videoStream = none ∧ audioStream = none ∧ subtitleStream = none
    · simp [hall] at h
    · rw [if_neg hall] at h
      cases hv : videoStream with
      | some iv =>
        cases hov : openVideo iv with
        | error e => simp [hv, hov] at h
        | ok dv =>
          cases ha : audioStream with
          | some ia =>
            cases hoa : openAudio ia with
            | error e => simp [hv, hov, ha, hoa] at h
            | ok da =>
              cases hsub : subtitleStream with
              | some isub =>
                cases hos : openSubtitle isub with
                | error e => simp [hv, hov, ha, hoa, hsub, hos] at h
                | ok ds =>
                  simp [hv, hov, ha, hoa, hsub, hos] at h
                  subst h
                  simp
              | none =>
                simp [hv, hov, ha, hoa, hsub] at h
                subst h
                simp
          | none =>
            cases hsub : subtitleStream with
            | some isub =>
              cases hos : openSubtitle isub with
              | error e => simp [hv, hov, ha, hsub, hos] at h
              | ok ds =>
                simp [hv, hov, ha, hsub, hos] at h
                subst h
                simp
            | none =>
              simp [hv, hov, ha, hsub] at h
              subst h
              simp
      | none =>
        cases ha : audioStream with
        | some ia =>
          cases hoa : openAudio ia with
          | error e => simp [hv, ha, hoa] at h
          | ok da =>
            cases hsub : subtitleStream with
            | some isub =>
              cases hos : openSubtitle isub with
              | error e => simp [hv, ha, hoa, hsub, hos] at h
              | ok ds =>
                simp [hv, ha, hoa, hsub, hos] at h
                subst h
                simp
            | none =>
              simp [hv, ha, hoa, hsub] at h
              subst h
              simp
        | none =>
          cases hsub : subtitleStream with
          | some isub =>
            cases hos : openSubtitle isub with
            | error e => simp [hv, ha, hsub, hos] at h
            | ok ds =>
              simp [hv, ha, hsub, hos] at h
              subst h
              simp
          | none => simp [hv, ha, hsub] at hall

/-- Witness for C10: a build with only a video stream succeeds with exactly a
video decoder, and an all-`none` build fails. -/
theorem build_requires_and_reflects_streams_witness :
    MediaPlayerBuilder.build none none none
        (fun _ => Except.ok witnessSlot) (fun _ => Except.ok witnessSlot)
        (fun _ => Except.ok witnessSlot) [] =
      Except.error PlayerError.noAvailableStreams ∧
    (c10WitnessState.decoderVideo.isSome ∨ c10WitnessState.decoderAudio.isSome ∨
      c10WitnessState.decoderSubtitle.isSome) :=
  ⟨build_requires_and_reflects_streams.1 _ _ _ _,
    (build_requires_and_reflects_streams.2 (some 0) none none
      (fun _ => Except.ok witnessSlot) (fun _ => Except.ok witnessSlot)
      (fun _ => Except.ok witnessSlot) [] c10WitnessState rfl).2.2.2⟩

/-- **C5 (refuted: code bug).**  The claim says that once flush has been
signaled and all internally buffered frames are drained, every subsequent
`decode` fails with end-of-stream, not with needs-more-input.  But the
default `Decoder::flush` that `BaseDecoder` (the audio and subtitle player
decoders) inherits is a no-op: it never sends a drain packet, so the codec
context never enters draining mode (`draining` stays `false`, its creation
value) and `decode` after `flush` keeps returning `AVERROR(EAGAIN)`
("needs more input") instead of `AVERROR_EOF`. -/
theorem base_decoder_decode_after_flush_is_eagain (d : BaseDecoder)
    (hdrained : d.ctx.buffered = []) (hnodrain : d.ctx.draining = false) :
    BaseDecoder.flush d = (Except.ok (), d) ∧
    (BaseDecoder.flush d).2.ctx.draining = false ∧
    ((BaseDecoder.flush d).2.decode).1 = Except.error ⟨eagainErrno⟩ ∧
    (⟨eagainErrno⟩ : FFmpegError).needs_data = true ∧
    (⟨eagainErrno⟩ : FFmpegError).is_eof = false := by
  refine ⟨rfl, by simp [BaseDecoder.flush, hnodrain], ?_, by decide, by decide⟩
  simp [BaseDecoder.flush, BaseDecoder.decode, AVCodecCtx.receive_frame,
    hdrained, hnodrain]

/-- Witness for C5 at a freshly drained decoder. -/
theorem base_decoder_decode_after_flush_is_eagain_witness :
    ((BaseDecoder.flush ⟨⟨[], false⟩, true⟩).2.decode).1 =
      Except.error ⟨eagainErrno⟩ ∧
    (⟨eagainErrno⟩ : FFmpegError).is_eof = false :=
  ⟨(base_decoder_decode_after_flush_is_eagain ⟨⟨[], false⟩, true⟩ rfl
      rfl).2.2.1,
    (base_decoder_decode_after_flush_is_eagain ⟨⟨[], false⟩, true⟩ rfl
      rfl).2.2.2.2⟩

/-- **C8 counterexample.**  In a build without debug assertions (the
`debug_assert!` at `codec/subtitle.rs` lines 68-71 is compiled out),
`write_packet` decoding a full subtitle while an unconsumed ready slot is
present silently replaces the slot — no fatal outcome — refuting "it never
silently replaces the unconsumed subtitle". -/
theorem subtitle_overwrite_counterexample :
    SubtitleDecoder.write_packet false ⟨some ⟨0⟩⟩ (Except.ok (some ⟨5⟩)) =
      SubtitleWriteResult.ok ⟨some ⟨5⟩⟩ ∧
    (⟨some ⟨0⟩⟩ : SubtitleDecoder).ready_subtitle ≠ none := by
  exact ⟨rfl, by decide⟩

/-- **C8 (amended).**  `decode` transfers the ready slot into the output and
clears it, failing with needs-more-input when no slot is ready; and an
overwriting `write_packet` is trapped by the `debug_assert!` — a fatal panic
in builds with debug assertions, while in builds without them the slot is
silently replaced. -/
theorem subtitle_decode_and_overwrite (d : SubtitleDecoder) (sub : AVSubtitle)
    (hfull : d.ready_subtitle ≠ none) :
    SubtitleDecoder.decode ⟨none⟩ = (Except.error ⟨eagainErrno⟩, ⟨none⟩) ∧
    (⟨eagainErrno⟩ : FFmpegError).needs_data = true ∧
    (∀ s : AVSubtitle,
      SubtitleDecoder.decode ⟨some s⟩ = (Except.ok s, ⟨none⟩)) ∧
    SubtitleDecoder.write_packet true d (Except.ok (some sub)) =
      SubtitleWriteResult.assertionPanic ∧
    SubtitleDecoder.write_packet false d (Except.ok (some sub)) =
      SubtitleWriteResult.ok ⟨some sub⟩ := by
  refine ⟨rfl, by decide, fun s => rfl, ?_, ?_⟩ <;>
    simp [SubtitleDecoder.write_packet, hfull]

/-- `dedupTail prev l` keeps a subsequence of `l` in order. -/
theorem dedupTail_sublist {α : Type} [DecidableEq α] (l : List α) :
    ∀ prev : α, (dedupTail prev l).Sublist l := by
  induction l with
  | nil => intro prev; simp [dedupTail]
  | cons b rest ih =>
    intro prev
    by_cases hb : b = prev
    · simp only [dedupTail, if_pos hb]
      exact (ih prev).cons b
    · simp only [dedupTail, if_neg hb]
      exact (ih b).cons₂ b

/-- Membership is preserved by `dedupTail` up to the retained previous
element. -/
theorem mem_dedupTail {α : Type} [DecidableEq α] {x : α} (l : List α) :
    ∀ prev : α, x ∈ l → x = prev ∨ x ∈ dedupTail prev l := by
  induction l with
  | nil => intro prev h; cases h
  | cons b rest ih =>
    intro prev h
    rcases List.mem_cons.mp h with hx | hx
    · by_cases hb : b = prev
      · exact Or.inl (hx.trans hb)
      · right
        simp only [dedupTail, if_neg hb]
        exact List.mem_cons.mpr (Or.inl hx)
    · by_cases hb : b = prev
      · simpa only [dedupTail, if_pos hb] using ih prev hx
      · rcases ih b hx with h1 | h1
        · right
          simp only [dedupTail, if_neg hb]
          exact List.mem_cons.mpr (Or.inl h1)
        · right
          simp only [dedupTail, if_neg hb]
          exact List.mem_cons.mpr (Or.inr h1)

/-- `prev` followed by `dedupTail prev l` has no two adjacent equal
elements. -/
theorem chain'_dedupTail {α : Type} [DecidableEq α] (l : List α) :
    ∀ prev : α,
      List.Chain' (fun a b => a ≠ b) (prev :: dedupTail prev l) := by
  induction l with
  | nil => intro prev; simp [dedupTail]
  | cons b rest ih =>
    intro prev
    by_cases hb : b = prev
    · simpa only [dedupTail, if_pos hb] using ih prev
    · simp only [dedupTail, if_neg hb]
      exact List.chain'_cons.mpr ⟨fun hc => hb hc.symm, ih b⟩

/-- **C7 counterexample.**  `set_accelerators` uses `Vec::dedup`, which only
removes *consecutive* repeats: the input `[vaapi, cuda, vaapi]` (valid on
Linux) is stored unchanged and the resulting affinity list contains `vaapi`
twice, refuting "the list subsequently returned by `accelerators()` contains
no duplicate entries". -/
theorem set_accelerators_duplicates_counterexample :
    (AcceleratorConfig.set_accelerators hwPlatformFlagsLinux ⟨[], none⟩
        [Accelerator.vaapi, Accelerator.cuda, Accelerator.vaapi]).1.accelerators
      = [Accelerator.vaapi, Accelerator.cuda, Accelerator.vaapi] ∧
    ¬ (AcceleratorConfig.set_accelerators hwPlatformFlagsLinux ⟨[], none⟩
        [Accelerator.vaapi, Accelerator.cuda,
          Accelerator.vaapi]).1.accelerators.Nodup := by
  decide

/-- **C7 (amended).**  `set_accelerators` stores the input list with only
*consecutive* duplicates removed (so adjacent entries of the stored list are
pairwise distinct, the stored list is a subsequence of the input preserving
first-occurrence order, and exactly the input's elements appear); the call
never fails — the configuration is always replaced, the target device kept —
and the warning is logged precisely when the platform is recognised and no
supplied entry is valid for it. -/
theorem set_accelerators_consecutive_dedup (targetPlatform : Nat)
    (cfg : AcceleratorConfig) (accelerators : List Accelerator) :
    List.Chain' (fun a b => a ≠ b)
      (AcceleratorConfig.set_accelerators targetPlatform cfg
        accelerators).1.accelerators ∧
    (AcceleratorConfig.set_accelerators targetPlatform cfg
        accelerators).1.accelerators.Sublist accelerators ∧
    (∀ a, a ∈ (AcceleratorConfig.set_accelerators targetPlatform cfg
        accelerators).1.accelerators ↔ a ∈ accelerators) ∧
    ((AcceleratorConfig.set_accelerators targetPlatform cfg
        accelerators).2 = true ↔
      (targetPlatform ≠ 0 ∧
        ∀ a ∈ accelerators, a.platform_flags &&& targetPlatform = 0)) ∧
    (AcceleratorConfig.set_accelerators targetPlatform cfg
        accelerators).1.target_device = cfg.target_device := by
  refine ⟨?_, ?_, ?_, ?_, rfl⟩
  · cases accelerators with
    | nil => simp [AcceleratorConfig.set_accelerators,
        AcceleratorConfig.accelerators, rustDedup]
    | cons a rest =>
      simpa [AcceleratorConfig.set_accelerators,
        AcceleratorConfig.accelerators, rustDedup] using
        chain'_dedupTail rest a
  · cases accelerators with
    | nil => simp [AcceleratorConfig.set_accelerators,
        AcceleratorConfig.accelerators, rustDedup]
    | cons a rest =>
      simpa [AcceleratorConfig.set_accelerators,
        AcceleratorConfig.accelerators, rustDedup] using
        (dedupTail_sublist rest a).cons₂ a
  · intro x
    cases accelerators with
    | nil => simp [AcceleratorConfig.set_accelerators,
        AcceleratorConfig.accelerators, rustDedup]
    | cons a rest =>
      simp only [AcceleratorConfig.set_accelerators,
        AcceleratorConfig.accelerators, rustDedup]
      constructor
      · intro hx
        rcases List.mem_cons.mp hx with h1 | h1
        · exact List.mem_cons.mpr (Or.inl h1)
        · exact List.mem_cons.mpr
            (Or.inr ((dedupTail_sublist rest a).mem h1))
      · intro hx
        rcases List.mem_cons.mp hx with h1 | h1
        · exact List.mem_cons.mpr (Or.inl h1)
        · rcases mem_dedupTail rest a h1 with h2 | h2
          · exact List.mem_cons.mpr (Or.inl h2)
          · exact List.mem_cons.mpr (Or.inr h2)
  · simp [AcceleratorConfig.set_accelerators]

/-- Witness for C7: the Windows default affinity list in `accelerator.rs`
(lines 22-28) repeats `D3D12` consecutively; the stored list keeps one copy,
and the warning is off because the entries are valid for Windows. -/
theorem set_accelerators_consecutive_dedup_witness :
    List.Chain' (fun a b => a ≠ b)
      (AcceleratorConfig.set_accelerators hwPlatformFlagsWindows ⟨[], none⟩
        [Accelerator.d3d12, Accelerator.d3d12, Accelerator.dxva2,
          Accelerator.cuda, Accelerator.vaapi]).1.accelerators ∧
    ((AcceleratorConfig.set_accelerators hwPlatformFlagsWindows ⟨[], none⟩
        [Accelerator.d3d12, Accelerator.d3d12, Accelerator.dxva2,
          Accelerator.cuda, Accelerator.vaapi]).2 = true ↔
      (hwPlatformFlagsWindows ≠ 0 ∧
        ∀ a ∈ [Accelerator.d3d12, Accelerator.d3d12, Accelerator.dxva2,
          Accelerator.cuda, Accelerator.vaapi],
          a.platform_flags &&& hwPlatformFlagsWindows = 0)) :=
  ⟨(set_accelerators_consecutive_dedup hwPlatformFlagsWindows ⟨[], none⟩
      _).1,
    (set_accelerators_consecutive_dedup hwPlatformFlagsWindows ⟨[], none⟩
      _).2.2.2.1⟩

/-- Witness for C8 at a decoder holding an unconsumed subtitle. -/
theorem subtitle_decode_and_overwrite_witness :
    SubtitleDecoder.write_packet true ⟨some ⟨0⟩⟩ (Except.ok (some ⟨5⟩)) =
      SubtitleWriteResult.assertionPanic ∧
    SubtitleDecoder.decode ⟨some ⟨7⟩⟩ = (Except.ok ⟨7⟩, ⟨none⟩) :=
  ⟨(subtitle_decode_and_overwrite ⟨some ⟨0⟩⟩ ⟨5⟩ (by decide)).2.2.2.1,
    (subtitle_decode_and_overwrite ⟨some ⟨0⟩⟩ ⟨5⟩ (by decide)).2.2.1 ⟨7⟩⟩

end LibavPlayer

namespace WgpuPlayer

open LibavPlayer (FFmpegError Accelerator)

/-- `finishOpen` never alters the decoder it opens. -/
theorem finishOpen_ok_eq {env : HwEnv} {hasParams : Bool}
    {decoder d : VideoDecoder}
    (h : finishOpen env hasParams decoder = Except.ok d) : d = decoder := by
  unfold finishOpen at h
  rcases hc : (if hasParams then env.copyParamsResult decoder.codec
      else Except.ok ()) with e | u
  · rw [hc] at h; cases h
  · rw [hc] at h
    rcases ho : env.openResult decoder with e | u2
    · rw [ho] at h; cases h
    · rw [ho] at h
      cases h
      rfl

/-- **C4 counterexample.**  With affinity `[vaapi, cuda]`, `vaapi`
advertising a hardware config whose device-context creation fails with the
resource error `AVERROR(ENOMEM) = -12`, and `cuda` fully viable, the claim
says `vaapi` is skipped and the construction succeeds on `cuda`; the code
instead aborts the whole construction with the `-12` error (the `?` at
`wgpu-player/src/codec.rs` line 354 propagates every `av_hwdevice_ctx_create`
failure, and `VideoDecoder::open` line 199 returns it). -/
theorem accelerated_open_aborts_on_resource_error :
    VideoDecoder.openWithConfig c4Env "h264" true
        [Accelerator.vaapi, Accelerator.cuda] = Except.error ⟨-12⟩ ∧
    VideoDecoder.openWithConfig c4Env "h264" true [Accelerator.cuda] =
      Except.ok
        { codec := CodecRef.base "h264"
          accelerator := some Accelerator.cuda
          swPixFmt := 0 } :=
  ⟨rfl, rfl⟩

/-- **C4 (amended).**  In the hardware-fallback loop, an accelerator is
skipped (fall-through to the next affinity entry) exactly when the codec has
no native hardware-config entry for it *and* no codec-name variant exists;
*any* failure of `av_hwdevice_ctx_create` — resource error or not — aborts
the whole construction with that error, and so does *any* failure of the
subsequent open, including invalid-data errors. -/
theorem accelerated_open_fallback_behaviour (env : HwEnv)
    (codecName : String) (hasParams : Bool) (a : Accelerator)
    (rest : List Accelerator) (e : FFmpegError) (d : VideoDecoder) :
    (env.hasHwConfig a = false →
      env.decoderByName (format_codec_name_with_accelerator codecName a) =
        false →
      VideoDecoder.openWithConfig env codecName hasParams (a :: rest) =
        VideoDecoder.openWithConfig env codecName hasParams rest) ∧
    (env.hasHwConfig a = true →
      env.hwDeviceCreate a = Except.error e →
      VideoDecoder.openWithConfig env codecName hasParams (a :: rest) =
        Except.error e) ∧
    (create_accelerated_decoder env codecName a = Except.ok (some d) →
      (if hasParams then env.copyParamsResult d.codec else Except.ok ()) =
        Except.ok () →
      env.openResult d = Except.error e →
      VideoDecoder.openWithConfig env codecName hasParams (a :: rest) =
        Except.error e) := by
  refine ⟨?_, ?_, ?_⟩
  · intro hno hnovariant
    simp [VideoDecoder.openWithConfig, create_accelerated_decoder, hno,
      hnovariant]
  · intro hyes hfail
    simp [VideoDecoder.openWithConfig, create_accelerated_decoder, hyes,
      hfail]
  · intro hcreate hcopy hopen
    simp [VideoDecoder.openWithConfig, hcreate, finishOpen, hcopy, hopen]

/-- Witness for C4 (amended) in the `c4Env` environment: `vdpau` has neither
a hardware config nor a named variant, so it falls through to `cuda`; and a
device-creation failure aborts. -/
theorem accelerated_open_fallback_behaviour_witness :
    VideoDecoder.openWithConfig c4Env "h264" true
        [Accelerator.vdpau, Accelerator.cuda] =
      VideoDecoder.openWithConfig c4Env "h264" true [Accelerator.cuda] ∧
    VideoDecoder.openWithConfig c4Env "h264" true
        [Accelerator.vaapi, Accelerator.cuda] = Except.error ⟨-12⟩ :=
  ⟨(accelerated_open_fallback_behaviour c4Env "h264" true Accelerator.vdpau
      [Accelerator.cuda] ⟨-12⟩
      { codec := CodecRef.base "h264", accelerator := none,
        swPixFmt := 0 }).1 rfl rfl,
    (accelerated_open_fallback_behaviour c4Env "h264" true Accelerator.vaapi
      [Accelerator.cuda] ⟨-12⟩
      { codec := CodecRef.base "h264", accelerator := none,
        swPixFmt := 0 }).2.1 rfl rfl⟩

/-- **C6 counterexample.**  With no native hardware config but an existing
`h264_cuda` codec-name variant, the construction succeeds through `cuda`'s
variant, yet the returned decoder's `accelerator` field is `None` — the
`codec.accelerator = Some(...)` assignment at `wgpu-player/src/codec.rs`
line 360 sits inside the `!hw_config.is_null()` branch, so a variant-lookup
success is never recorded — refuting "whichever affinity entry succeeded,
including one reached via a codec-name-variant lookup, is the one reported
by the accelerator query". -/
theorem variant_accelerator_not_recorded_counterexample :
    VideoDecoder.openWithConfig c6Env "h264" true [Accelerator.cuda] =
      Except.ok
        { codec := CodecRef.variant "h264_cuda"
          accelerator := none
          swPixFmt := 0 } ∧
    (VideoDecoder.openWithConfig c6Env "h264" true
        [Accelerator.cuda]).toOption.map VideoDecoder.accelerator =
      some none := by
  constructor
  · rfl
  · rfl

/-- **C6 (amended).**  A successful construction through an accelerator's
*native hardware-config* path records that accelerator and reports it, and
`pix_fmt` is the fixed pixel format that accelerator implies; a successful
construction through the *codec-name-variant* path records no accelerator
(the query reports `None` and `pix_fmt` falls back to the context's software
format); and the software fallback reports no accelerator. -/
theorem accelerator_recorded_only_on_hw_config_path (env : HwEnv)
    (codecName : String) (hasParams : Bool) (a : Accelerator)
    (rest : List Accelerator) (d : VideoDecoder) :
    (env.hasHwConfig a = true →
      VideoDecoder.openWithConfig env codecName hasParams (a :: rest) =
        Except.ok d →
      d.accelerator = some a ∧ d.pix_fmt = hwPixFmt a) ∧
    (env.hasHwConfig a = false →
      env.decoderByName (format_codec_name_with_accelerator codecName a) =
        true →
      VideoDecoder.openWithConfig env codecName hasParams (a :: rest) =
        Except.ok d →
      d.accelerator = none ∧ d.pix_fmt = PixFmt.sw d.swPixFmt ∧
        d.codec =
          CodecRef.variant (format_codec_name_with_accelerator codecName a)) ∧
    (VideoDecoder.openWithConfig env codecName hasParams [] = Except.ok d →
      d.accelerator = none ∧ d.pix_fmt = PixFmt.sw d.swPixFmt ∧
        d.codec = CodecRef.base codecName) := by
  refine ⟨?_, ?_, ?_⟩
  · intro hyes hopen
    rcases hdev : env.hwDeviceCreate a with e | u
    · rw [VideoDecoder.openWithConfig] at hopen
      simp [create_accelerated_decoder, hyes, hdev] at hopen
    · rw [VideoDecoder.openWithConfig] at hopen
      simp only [create_accelerated_decoder, hyes, if_pos, hdev] at hopen
      have hd := finishOpen_ok_eq hopen
      subst hd
      exact ⟨rfl, rfl⟩
  · intro hno hvariant hopen
    rw [VideoDecoder.openWithConfig] at hopen
    simp only [create_accelerated_decoder, hno, hvariant] at hopen
    have hd := finishOpen_ok_eq hopen
    subst hd
    exact ⟨rfl, rfl, rfl⟩
  · intro hopen
    rw [VideoDecoder.openWithConfig] at hopen
    have hd := finishOpen_ok_eq hopen
    subst hd
    exact ⟨rfl, rfl, rfl⟩

/-- Witness for C6 (amended): in `c4Env` the hardware-config path on `cuda`
records `cuda` and reports the cuda pixel format; in `c6Env` the software
fallback reports no accelerator. -/
theorem accelerator_recorded_only_on_hw_config_path_witness :
    ({ codec := CodecRef.base "h264", accelerator := some Accelerator.cuda,
        swPixFmt := 0 } : VideoDecoder).accelerator = some Accelerator.cuda ∧
    ({ codec := CodecRef.base "h264", accelerator := some Accelerator.cuda,
        swPixFmt := 0 } : VideoDecoder).pix_fmt = hwPixFmt Accelerator.cuda ∧
    ({ codec := CodecRef.base "h264", accelerator := none,
        swPixFmt := 0 } : VideoDecoder).accelerator = none :=
  ⟨((accelerator_recorded_only_on_hw_config_path c4Env "h264" true
      Accelerator.cuda [] _).1 rfl rfl).1,
    ((accelerator_recorded_only_on_hw_config_path c4Env "h264" true
      Accelerator.cuda [] _).1 rfl rfl).2,
    ((accelerator_recorded_only_on_hw_config_path c6Env "h264" true
      Accelerator.cuda []
      { codec := CodecRef.base "h264", accelerator := none,
        swPixFmt := 0 }).2.2 rfl).1⟩

end WgpuPlayer

namespace LibavPlayer

/-- **C2 counterexample.**  A player state in which the video stream has a
ready (undelivered) frame whose timestamp is exactly `i64::MAX`: the claim
says the selection must return it (it is the smallest — indeed only — ready
timestamp), but `get_ready_frame` compares through `unwrap_or(i64::MAX)` and
explicitly excludes `i64::MAX` (`player.rs` lines 395-397), so it returns
nothing and clears nothing, conflating a genuine `i64::MAX` timestamp with
"not ready". -/
theorem ready_i64max_not_selected_counterexample :
    c2CexState.frameVideoReady.isSome = true ∧
    MediaPlayer.get_ready_frame c2CexState = (none, c2CexState) := by
  constructor
  · rfl
  · decide

/-- **C2 (amended).**  For ready timestamps strictly below `i64::MAX` (every
real `i64` timestamp except the sentinel value itself), `get_ready_frame` is
exactly the spec's selection: if at least one stream is ready it returns the
ready frame with the smallest timestamp — ties broken by the fixed priority
video, audio, subtitle — and clears exactly that stream's marker (a stream
with no ready frame is treated as infinitely late); if no stream is ready it
returns nothing and changes no state. -/
theorem get_ready_frame_is_sorted_merge (s : PlayerState)
    (hv : ∀ t, s.frameVideoReady = some t → t < i64Max)
    (ha : ∀ t, s.frameAudioReady = some t → t < i64Max)
    (hsub : ∀ t, s.frameSubtitleReady = some t → t < i64Max) :
    MediaPlayer.get_ready_frame s =
      match selectReadySpec s with
      | none => (none, s)
      | some (k, t) => (some ⟨k, t⟩, clearReady k s) := by
  rcases hvs : s.frameVideoReady with _ | tv <;>
    rcases has : s.frameAudioReady with _ | ta <;>
      rcases hss : s.frameSubtitleReady with _ | ts
  all_goals
    simp only [MediaPlayer.get_ready_frame, selectReadySpec, readyCandidates,
      clearReady, hvs, has, hss, Option.getD_none, Option.getD_some,
      List.nil_append, List.append_nil, List.cons_append, List.foldl_nil,
      List.foldl_cons]
  · split_ifs <;>
      first
      | rfl
      | (exfalso; simp only [i64Max] at *; omega)
      | (simp only [hvs, has, hss])
  · have hb := hsub ts hss
    split_ifs <;>
      first
      | rfl
      | (exfalso; simp only [i64Max] at *; omega)
      | (simp only [hvs, has, hss])
  · have hb := ha ta has
    split_ifs <;>
      first
      | rfl
      | (exfalso; simp only [i64Max] at *; omega)
      | (simp only [hvs, has, hss])
  · have hb1 := ha ta has
    have hb2 := hsub ts hss
    split_ifs <;>
      first
      | rfl
      | (exfalso; simp only [i64Max] at *; omega)
      | (simp only [hvs, has, hss])
  · have hb := hv tv hvs
    split_ifs <;>
      first
      | rfl
      | (exfalso; simp only [i64Max] at *; omega)
      | (simp only [hvs, has, hss])
  · have hb1 := hv tv hvs
    have hb2 := hsub ts hss
    split_ifs <;>
      first
      | rfl
      | (exfalso; simp only [i64Max] at *; omega)
      | (simp only [hvs, has, hss])
  · have hb1 := hv tv hvs
    have hb2 := ha ta has
    split_ifs <;>
      first
      | rfl
      | (exfalso; simp only [i64Max] at *; omega)
      | (simp only [hvs, has, hss])
  · have hb1 := hv tv hvs
    have hb2 := ha ta has
    have hb3 := hsub ts hss
    split_ifs <;>
      first
      | rfl
      | (exfalso; simp only [i64Max] at *; omega)
      | (simp only [hvs, has, hss])

/-- Witness for C2 (amended) at a state with video ready at 7 and audio
ready at 3: the audio frame wins and only the audio marker is cleared. -/
theorem get_ready_frame_is_sorted_merge_witness :
    MediaPlayer.get_ready_frame c2WitnessState =
      (some ⟨MediaKind.audio, 3⟩,
        { c2WitnessState with frameAudioReady := none }) ∧
    selectReadySpec c2WitnessState = some (MediaKind.audio, 3) := by
  have h := get_ready_frame_is_sorted_merge c2WitnessState
    (by intro t ht
        simp only [c2WitnessState, emptyPlayer, Option.some.injEq] at ht
        subst ht
        decide)
    (by intro t ht
        simp only [c2WitnessState, emptyPlayer, Option.some.injEq] at ht
        subst ht
        decide)
    (by intro t ht
        simp [c2WitnessState, emptyPlayer] at ht)
  exact ⟨h, rfl⟩

end LibavPlayer

namespace LibavPlayer

/-- What a delivered frame guarantees about the remaining ready markers: the
selection in `get_ready_frame` only delivers a frame whose timestamp is `≤`
every other stream's ready timestamp, and it leaves those markers in
place. -/
def readyBound (f : DecodedFrame) (s : PlayerState) : Prop :=
  (∀ t, s.frameVideoReady = some t → f.pts ≤ t) ∧
  (∀ t, s.frameAudioReady = some t → f.pts ≤ t) ∧
  (∀ t, s.frameSubtitleReady = some t → f.pts ≤ t)

/-- A frame delivered by `get_ready_frame` is bounded by every ready marker
left in the post-state. -/
theorem get_ready_frame_some_bound {s s' : PlayerState} {f : DecodedFrame}
    (h : MediaPlayer.get_ready_frame s = (some f, s')) : readyBound f s' := by
  simp only [MediaPlayer.get_ready_frame] at h
  split_ifs at h with h1 h2 h3
  · obtain ⟨hf, hs⟩ := Prod.mk.injEq .. ▸ h
    cases hf
    subst hs
    refine ⟨fun t ht => by simp at ht, fun t ht => ?_, fun t ht => ?_⟩
    · simp only at ht
      rw [ht] at h1
      simpa using h1.1
    · simp only at ht
      rw [ht] at h1
      simpa using h1.2.1
  · obtain ⟨hf, hs⟩ := Prod.mk.injEq .. ▸ h
    cases hf
    subst hs
    refine ⟨fun t ht => ?_, fun t ht => by simp at ht, fun t ht => ?_⟩
    · simp only at ht
      rw [ht] at h2
      simpa using h2.1
    · simp only at ht
      rw [ht] at h2
      simpa using h2.2.1
  · obtain ⟨hf, hs⟩ := Prod.mk.injEq .. ▸ h
    cases hf
    subst hs
    refine ⟨fun t ht => ?_, fun t ht => ?_, fun t ht => by simp at ht⟩
    · simp only at ht
      rw [ht] at h3
      simpa using h3.1
    · simp only at ht
      rw [ht] at h3
      simpa using h3.2.1
  · cases h

end LibavPlayer

namespace LibavPlayer

/-- A frame returned by `get_next_frame` is bounded by every ready marker
left in the post-state (both its return sites go through
`get_ready_frame`). -/
theorem get_next_frame_ok_bound {s s' : PlayerState} {f : DecodedFrame}
    (h : MediaPlayer.get_next_frame s = (Except.ok f, s')) :
    readyBound f s' := by
  unfold MediaPlayer.get_next_frame at h
  cases h1 : MediaPlayer.get_ready_frame s with
  | mk o1 s1 =>
  rw [h1] at h
  cases o1 with
  | some f1 =>
    simp only [Prod.mk.injEq, Except.ok.injEq] at h
    obtain ⟨hf, hs⟩ := h
    subst hf
    subst hs
    exact get_ready_frame_some_bound h1
  | none =>
    simp only at h
    cases h2 : MediaPlayer.pollVideo s1 with
    | mk r2 s2 =>
    rw [h2] at h
    cases r2 with
    | error e => simp at h
    | ok u =>
      simp only at h
      cases h3 : MediaPlayer.pollAudio s2 with
      | mk r3 s3 =>
      rw [h3] at h
      cases r3 with
      | error e => simp at h
      | ok u2 =>
        simp only at h
        cases h4 : MediaPlayer.pollSubtitle s3 with
        | mk r4 s4 =>
        rw [h4] at h
        cases r4 with
        | error e => simp at h
        | ok u3 =>
          simp only at h
          cases h5 : MediaPlayer.get_ready_frame s4 with
          | mk o5 s5 =>
          rw [h5] at h
          cases o5 with
          | some f5 =>
            simp only [Prod.mk.injEq, Except.ok.injEq] at h
            obtain ⟨hf, hs⟩ := h
            subst hf
            subst hs
            exact get_ready_frame_some_bound h5
          | none => simp at h

/-- A frame returned by the `process_next_frame` loop is bounded by every
ready marker left in the post-state. -/
theorem processLoop_ok_bound :
    ∀ (fuel : Nat) {s s' : PlayerState} {f : DecodedFrame},
      MediaPlayer.processLoop fuel s = (Except.ok f, s') → readyBound f s' := by
  intro fuel
  induction fuel with
  | zero =>
    intro s s' f h
    simp [MediaPlayer.processLoop] at h
  | succ n ih =>
    intro s s' f h
    rw [MediaPlayer.processLoop] at h
    cases h1 : MediaPlayer.get_next_frame s with
    | mk r1 s1 =>
    rw [h1] at h
    cases r1 with
    | ok f1 =>
      simp only [Prod.mk.injEq, Except.ok.injEq] at h
      obtain ⟨hf, hs⟩ := h
      subst hf
      subst hs
      exact get_next_frame_ok_bound h1
    | error e =>
      simp only at h
      by_cases he : (e.needs_data || e.is_eof) = true
      · rw [if_pos he] at h
        by_cases heop : s1.endOfPacketStream = true
        · rw [if_pos heop] at h
          simp at h
        · rw [if_neg heop] at h
          cases hr : s1.readResults with
          | nil => rw [hr] at h; simp at h
          | cons r rest =>
            rw [hr] at h
            cases r with
            | error re =>
              simp only at h
              by_cases hre : re.is_eof = true
              · rw [if_pos hre] at h
                cases hfl : MediaPlayer.flush
                    { s1 with
                      readResults := rest
                      endOfPacketStream := true
                      events := s1.events ++
                        [PlayerEvent.readEof, PlayerEvent.flushedDecoders] }
                    with
                | mk rf sf =>
                rw [hfl] at h
                cases rf with
                | ok u => exact ih h
                | error fe => simp at h
              · rw [if_neg hre] at h
                simp at h
            | ok idx =>
              simp only at h
              cases hd : MediaPlayer.dispatch_packet
                  (MediaPlayer.recordReadOk { s1 with readResults := rest }
                    idx) with
              | mk rd sd =>
              rw [hd] at h
              cases rd with
              | ok u => exact ih h
              | error de => simp at h
      · rw [if_neg he] at h
        simp at h

/-- **C1 (amended).**  Every frame successfully delivered by
`process_next_frame` has a timestamp `≤` the timestamp of every frame still
buffered-and-ready on another stream when it is delivered (the 3-way merge
never leapfrogs a buffered frame).  The original claim's global
non-decreasing property fails — see the counterexample — because a stream
can produce an earlier-stamped frame only after another stream's
later-stamped frame was already delivered. -/
theorem merge_never_leapfrogs_ready (s s' : PlayerState) (f : DecodedFrame)
    (h : MediaPlayer.process_next_frame s = (Except.ok f, s')) :
    (∀ t, s'.frameVideoReady = some t → f.pts ≤ t) ∧
    (∀ t, s'.frameAudioReady = some t → f.pts ≤ t) ∧
    (∀ t, s'.frameSubtitleReady = some t → f.pts ≤ t) := by
  unfold MediaPlayer.process_next_frame at h
  cases hp : MediaPlayer.processLoop (s.readResults.length + 2) s with
  | mk rp sp =>
  rw [hp] at h
  cases rp with
  | ok fp =>
    simp only [Prod.mk.injEq, Except.ok.injEq] at h
    obtain ⟨hf, hs⟩ := h
    subst hf
    subst hs
    have hb := processLoop_ok_bound _ hp
    exact ⟨fun t ht => hb.1 t ht, fun t ht => hb.2.1 t ht,
      fun t ht => hb.2.2 t ht⟩
  | error e => simp at h

/-- Witness for C1 (amended): `c1WitnessState` delivers the video frame at
pts 10 while the audio frame at pts 20 is still buffered, and `10 ≤ 20`. -/
theorem merge_never_leapfrogs_ready_witness :
    (MediaPlayer.process_next_frame c1WitnessState).1 =
      Except.ok ⟨MediaKind.video, 10⟩ ∧
    (MediaPlayer.process_next_frame c1WitnessState).2.frameAudioReady =
      some 20 ∧
    (⟨MediaKind.video, 10⟩ : DecodedFrame).pts ≤ 20 :=
  ⟨rfl, rfl,
    (merge_never_leapfrogs_ready c1WitnessState
      (MediaPlayer.process_next_frame c1WitnessState).2
      ⟨MediaKind.video, 10⟩ rfl).2.1 20 rfl⟩

/-- **C1 counterexample.**  Two successive successful calls to
`process_next_frame` on `c1CexState` deliver the video frame at pts 10 and
then the audio frame at pts 5 — a decreasing timestamp sequence across the
merged stream — because the audio decoder produces its earlier-stamped frame
only after the video frame was already delivered. -/
theorem delivered_pts_can_decrease_counterexample :
    (MediaPlayer.process_next_frame c1CexState).1 =
      Except.ok ⟨MediaKind.video, 10⟩ ∧
    (MediaPlayer.process_next_frame
        (MediaPlayer.process_next_frame c1CexState).2).1 =
      Except.ok ⟨MediaKind.audio, 5⟩ ∧
    (⟨MediaKind.audio, 5⟩ : DecodedFrame).pts <
      (⟨MediaKind.video, 10⟩ : DecodedFrame).pts := by
  refine ⟨rfl, rfl, by decide⟩

end LibavPlayer

namespace LibavPlayer

/-- `flushCount` distributes over append. -/
theorem flushCount_append (l1 l2 : List PlayerEvent) :
    flushCount (l1 ++ l2) = flushCount l1 + flushCount l2 :=
  List.count_append ..

/-- With no flush logged yet, `noReadAfterFlush` only looks at the new
suffix. -/
theorem noReadAfterFlush_append {l1 : List PlayerEvent}
    (h : flushCount l1 = 0) (l2 : List PlayerEvent) :
    noReadAfterFlush (l1 ++ l2) = noReadAfterFlush l2 := by
  induction l1 with
  | nil => rfl
  | cons e rest ih =>
    have hcount : flushCount rest = 0 ∧ e ≠ PlayerEvent.flushedDecoders := by
      cases e <;> simp_all [flushCount, List.count_cons]
    cases e with
    | readOk idx =>
      simp only [List.cons_append, noReadAfterFlush]
      exact ih hcount.1
    | readEof =>
      simp only [List.cons_append, noReadAfterFlush]
      exact ih hcount.1
    | flushedDecoders => exact absurd rfl hcount.2

/-- Appending a successful read keeps `flushPrecededAux`. -/
theorem flushPrecededAux_append_readOk (l : List PlayerEvent) :
    ∀ (prev : Option PlayerEvent) (idx : Nat),
      flushPrecededAux prev l = true →
      flushPrecededAux prev (l ++ [PlayerEvent.readOk idx]) = true := by
  induction l with
  | nil =>
    intro prev idx _
    simp [flushPrecededAux]
  | cons e rest ih =>
    intro prev idx h
    simp only [flushPrecededAux, Bool.and_eq_true] at h
    simp only [List.cons_append, flushPrecededAux, Bool.and_eq_true]
    exact ⟨h.1, ih (some e) idx h.2⟩

/-- Appending the end-of-input read followed by the flush keeps
`flushPrecededAux`. -/
theorem flushPrecededAux_append_flush (l : List PlayerEvent) :
    ∀ prev : Option PlayerEvent,
      flushPrecededAux prev l = true →
      flushPrecededAux prev
        (l ++ [PlayerEvent.readEof, PlayerEvent.flushedDecoders]) = true := by
  induction l with
  | nil =>
    intro prev _
    simp [flushPrecededAux]
  | cons e rest ih =>
    intro prev h
    simp only [flushPrecededAux, Bool.and_eq_true] at h
    simp only [List.cons_append, flushPrecededAux, Bool.and_eq_true]
    exact ⟨h.1, ih (some e) h.2⟩

/-- `get_ready_frame` touches only the ready markers. -/
theorem get_ready_frame_preserves {s : PlayerState}
    {o : Option DecodedFrame} {s' : PlayerState}
    (h : MediaPlayer.get_ready_frame s = (o, s')) :
    s'.events = s.events ∧ s'.endOfPacketStream = s.endOfPacketStream ∧
      s'.readResults = s.readResults := by
  simp only [MediaPlayer.get_ready_frame] at h
  split_ifs at h <;> (cases h; exact ⟨rfl, rfl, rfl⟩)

/-- `pollVideo` touches only its decoder slot, the video marker and the
statistics. -/
theorem pollVideo_preserves {s : PlayerState} {r : Except FFmpegError Unit}
    {s' : PlayerState} (h : MediaPlayer.pollVideo s = (r, s')) :
    s'.events = s.events ∧ s'.endOfPacketStream = s.endOfPacketStream ∧
      s'.readResults = s.readResults := by
  unfold MediaPlayer.pollVideo at h
  cases hd : s.decoderVideo with
  | none => rw [hd] at h; cases h; exact ⟨rfl, rfl, rfl⟩
  | some d =>
    rw [hd] at h
    simp only at h
    rcases hnd : d.nextDecode with ⟨rr, d'⟩
    rw [hnd] at h
    cases rr with
    | ok pts => cases h; exact ⟨rfl, rfl, rfl⟩
    | error e =>
      simp only at h
      split_ifs at h <;> (cases h; exact ⟨rfl, rfl, rfl⟩)

/-- `pollAudio` touches only its decoder slot, the audio marker and the
statistics. -/
theorem pollAudio_preserves {s : PlayerState} {r : Except FFmpegError Unit}
    {s' : PlayerState} (h : MediaPlayer.pollAudio s = (r, s')) :
    s'.events = s.events ∧ s'.endOfPacketStream = s.endOfPacketStream ∧
      s'.readResults = s.readResults := by
  unfold MediaPlayer.pollAudio at h
  cases hd : s.decoderAudio with
  | none => rw [hd] at h; cases h; exact ⟨rfl, rfl, rfl⟩
  | some d =>
    rw [hd] at h
    simp only at h
    rcases hnd : d.nextDecode with ⟨rr, d'⟩
    rw [hnd] at h
    cases rr with
    | ok pts => cases h; exact ⟨rfl, rfl, rfl⟩
    | error e =>
      simp only at h
      split_ifs at h <;> (cases h; exact ⟨rfl, rfl, rfl⟩)

/-- `pollSubtitle` touches only its decoder slot, the subtitle marker and
the statistics. -/
theorem pollSubtitle_preserves {s : PlayerState} {r : Except FFmpegError Unit}
    {s' : PlayerState} (h : MediaPlayer.pollSubtitle s = (r, s')) :
    s'.events = s.events ∧ s'.endOfPacketStream = s.endOfPacketStream ∧
      s'.readResults = s.readResults := by
  unfold MediaPlayer.pollSubtitle at h
  cases hd : s.decoderSubtitle with
  | none => rw [hd] at h; cases h; exact ⟨rfl, rfl, rfl⟩
  | some d =>
    rw [hd] at h
    simp only at h
    rcases hnd : d.nextDecode with ⟨rr, d'⟩
    rw [hnd] at h
    cases rr with
    | ok pts => cases h; exact ⟨rfl, rfl, rfl⟩
    | error e =>
      simp only at h
      split_ifs at h <;> (cases h; exact ⟨rfl, rfl, rfl⟩)

/-- `get_next_frame` never touches the event trace, the
`end_of_packet_stream` flag or the read oracle. -/
theorem get_next_frame_preserves {s : PlayerState}
    {r : Except FFmpegError DecodedFrame} {s' : PlayerState}
    (h : MediaPlayer.get_next_frame s = (r, s')) :
    s'.events = s.events ∧ s'.endOfPacketStream = s.endOfPacketStream ∧
      s'.readResults = s.readResults := by
  unfold MediaPlayer.get_next_frame at h
  rcases h1 : MediaPlayer.get_ready_frame s with ⟨o1, s1⟩
  rw [h1] at h
  cases o1 with
  | some f1 =>
    cases h
    exact get_ready_frame_preserves h1
  | none =>
    simp only at h
    obtain ⟨e1, e2, e3⟩ := get_ready_frame_preserves h1
    rcases h2 : MediaPlayer.pollVideo s1 with ⟨r2, s2⟩
    rw [h2] at h
    obtain ⟨p1, p2, p3⟩ := pollVideo_preserves h2
    cases r2 with
    | error e =>
      cases h
      exact ⟨p1.trans e1, p2.trans e2, p3.trans e3⟩
    | ok u =>
      simp only at h
      rcases h3 : MediaPlayer.pollAudio s2 with ⟨r3, s3⟩
      rw [h3] at h
      obtain ⟨q1, q2, q3⟩ := pollAudio_preserves h3
      cases r3 with
      | error e =>
        cases h
        exact ⟨q1.trans (p1.trans e1), q2.trans (p2.trans e2),
          q3.trans (p3.trans e3)⟩
      | ok u2 =>
        simp only at h
        rcases h4 : MediaPlayer.pollSubtitle s3 with ⟨r4, s4⟩
        rw [h4] at h
        obtain ⟨w1, w2, w3⟩ := pollSubtitle_preserves h4
        cases r4 with
        | error e =>
          cases h
          exact ⟨w1.trans (q1.trans (p1.trans e1)),
            w2.trans (q2.trans (p2.trans e2)),
            w3.trans (q3.trans (p3.trans e3))⟩
        | ok u3 =>
          simp only at h
          rcases h5 : MediaPlayer.get_ready_frame s4 with ⟨o5, s5⟩
          rw [h5] at h
          obtain ⟨g1, g2, g3⟩ := get_ready_frame_preserves h5
          have k1 := g1.trans (w1.trans (q1.trans (p1.trans e1)))
          have k2 := g2.trans (w2.trans (q2.trans (p2.trans e2)))
          have k3 := g3.trans (w3.trans (q3.trans (p3.trans e3)))
          cases o5 with
          | some f5 => cases h; exact ⟨k1, k2, k3⟩
          | none => cases h; exact ⟨k1, k2, k3⟩

/-- `MediaPlayer::flush` touches only the decoder slots. -/
theorem flush_preserves {s : PlayerState} {r : Except FFmpegError Unit}
    {s' : PlayerState} (h : MediaPlayer.flush s = (r, s')) :
    s'.events = s.events ∧ s'.endOfPacketStream = s.endOfPacketStream ∧
      s'.readResults = s.readResults := by
  unfold MediaPlayer.flush at h
  cases hv : s.decoderVideo with
  | none =>
    rw [hv] at h
    simp only at h
    cases ha : s.decoderAudio with
    | none =>
      rw [ha] at h
      simp only at h
      cases hsub : s.decoderSubtitle with
      | none => rw [hsub] at h; cases h; exact ⟨rfl, rfl, rfl⟩
      | some d =>
        rw [hsub] at h
        simp only at h
        cases h
        exact ⟨rfl, rfl, rfl⟩
    | some d =>
      rw [ha] at h
      simp only at h
      rcases hnf : d.nextFlush with ⟨rr, d'⟩
      rw [hnf] at h
      cases rr with
      | error e => cases h; exact ⟨rfl, rfl, rfl⟩
      | ok u =>
        simp only at h
        cases hsub : s.decoderSubtitle with
        | none => rw [hsub] at h; cases h; exact ⟨rfl, rfl, rfl⟩
        | some d2 =>
          rw [hsub] at h
          simp only at h
          cases h
          exact ⟨rfl, rfl, rfl⟩
  | some d0 =>
    rw [hv] at h
    simp only at h
    rcases hnf0 : d0.nextFlush with ⟨rr0, d0'⟩
    rw [hnf0] at h
    cases rr0 with
    | error e => cases h; exact ⟨rfl, rfl, rfl⟩
    | ok u0 =>
      simp only at h
      cases ha : s.decoderAudio with
      | none =>
        simp only [ha] at h
        cases hsub : s.decoderSubtitle with
        | none => rw [hsub] at h; cases h; exact ⟨rfl, rfl, rfl⟩
        | some d2 =>
          rw [hsub] at h
          simp only at h
          cases h
          exact ⟨rfl, rfl, rfl⟩
      | some d1 =>
        simp only [ha] at h
        rcases hnf1 : d1.nextFlush with ⟨rr1, d1'⟩
        rw [hnf1] at h
        cases rr1 with
        | error e => cases h; exact ⟨rfl, rfl, rfl⟩
        | ok u1 =>
          simp only at h
          cases hsub : s.decoderSubtitle with
          | none => rw [hsub] at h; cases h; exact ⟨rfl, rfl, rfl⟩
          | some d2 =>
            rw [hsub] at h
            simp only at h
            cases h
            exact ⟨rfl, rfl, rfl⟩

/-- `dispatch_packet` touches only the decoder slots. -/
theorem dispatch_packet_preserves {s : PlayerState}
    {r : Except FFmpegError Unit} {s' : PlayerState}
    (h : MediaPlayer.dispatch_packet s = (r, s')) :
    s'.events = s.events ∧ s'.endOfPacketStream = s.endOfPacketStream ∧
      s'.readResults = s.readResults := by
  have hsubt : ∀ {t : PlayerState} {rt : Except FFmpegError Unit}
      {t' : PlayerState}, MediaPlayer.dispatchPacketSubtitle t = (rt, t') →
      t'.events = t.events ∧ t'.endOfPacketStream = t.endOfPacketStream ∧
        t'.readResults = t.readResults := by
    intro t rt t' ht
    unfold MediaPlayer.dispatchPacketSubtitle at ht
    cases hd : t.decoderSubtitle with
    | none => rw [hd] at ht; cases ht; exact ⟨rfl, rfl, rfl⟩
    | some d =>
      rw [hd] at ht
      simp only at ht
      split_ifs at ht <;> (cases ht; exact ⟨rfl, rfl, rfl⟩)
  have haud : ∀ {t : PlayerState} {rt : Except FFmpegError Unit}
      {t' : PlayerState}, MediaPlayer.dispatchPacketAudio t = (rt, t') →
      t'.events = t.events ∧ t'.endOfPacketStream = t.endOfPacketStream ∧
        t'.readResults = t.readResults := by
    intro t rt t' ht
    unfold MediaPlayer.dispatchPacketAudio at ht
    cases hd : t.decoderAudio with
    | none => rw [hd] at ht; exact hsubt ht
    | some d =>
      rw [hd] at ht
      simp only at ht
      split_ifs at ht with hi
      · cases ht; exact ⟨rfl, rfl, rfl⟩
      · exact hsubt ht
  unfold MediaPlayer.dispatch_packet at h
  split_ifs at h with heop
  · cases h; exact ⟨rfl, rfl, rfl⟩
  · cases hd : s.decoderVideo with
    | none => rw [hd] at h; exact haud h
    | some d =>
      rw [hd] at h
      simp only at h
      split_ifs at h with hi
      · cases h; exact ⟨rfl, rfl, rfl⟩
      · exact haud h

end LibavPlayer

namespace LibavPlayer

/-- `eventInv` only depends on the event trace and the
`end_of_packet_stream` flag. -/
theorem eventInv_of_eq {s s' : PlayerState} (hev : s'.events = s.events)
    (heop : s'.endOfPacketStream = s.endOfPacketStream) (h : eventInv s) :
    eventInv s' := by
  unfold eventInv at h ⊢
  rw [hev, heop]
  exact h

/-- A successful read is not a flush event. -/
theorem flushCount_readOk (idx : Nat) :
    flushCount [PlayerEvent.readOk idx] = 0 := rfl

/-- The end-of-input read plus the flush is one flush event. -/
theorem flushCount_eof_flush :
    flushCount [PlayerEvent.readEof, PlayerEvent.flushedDecoders] = 1 := rfl

/-- One `process_next_frame` loop pass preserves the temporal invariant. -/
theorem processLoop_preserves_eventInv :
    ∀ (fuel : Nat) {s : PlayerState} {r : Except PlayerError DecodedFrame}
      {s' : PlayerState},
      MediaPlayer.processLoop fuel s = (r, s') → eventInv s → eventInv s' := by
  intro fuel
  induction fuel with
  | zero =>
    intro s r s' h hinv
    rw [MediaPlayer.processLoop] at h
    cases h
    exact hinv
  | succ n ih =>
    intro s r s' h hinv
    rw [MediaPlayer.processLoop] at h
    rcases h1 : MediaPlayer.get_next_frame s with ⟨r1, s1⟩
    rw [h1] at h
    obtain ⟨e1, e2, e3⟩ := get_next_frame_preserves h1
    have hinv1 : eventInv s1 := eventInv_of_eq e1 e2 hinv
    cases r1 with
    | ok f1 =>
      cases h
      exact hinv1
    | error e =>
      simp only at h
      by_cases he : (e.needs_data || e.is_eof) = true
      · rw [if_pos he] at h
        by_cases heop : s1.endOfPacketStream = true
        · rw [if_pos heop] at h
          cases h
          exact hinv1
        · rw [if_neg heop] at h
          have heop' : s1.endOfPacketStream = false :=
            Bool.not_eq_true _ ▸ heop
          have hcount : flushCount s1.events = 0 := hinv1.2.2.2 heop'
          cases hr : s1.readResults with
          | nil =>
            rw [hr] at h
            cases h
            exact hinv1
          | cons r0 rest =>
            rw [hr] at h
            cases r0 with
            | error re =>
              simp only at h
              by_cases hre : re.is_eof = true
              · rw [if_pos hre] at h
                have hinv3 : eventInv
                    { s1 with
                      readResults := rest
                      endOfPacketStream := true
                      events := s1.events ++
                        [PlayerEvent.readEof,
                          PlayerEvent.flushedDecoders] } := by
                  refine ⟨?_, ?_, ?_, ?_⟩
                  · exact flushPrecededAux_append_flush s1.events none
                      hinv1.1
                  · show noReadAfterFlush (s1.events ++ _) = true
                    rw [noReadAfterFlush_append hcount]
                    rfl
                  · show flushCount (s1.events ++ _) ≤ 1
                    rw [flushCount_append, hcount, flushCount_eof_flush]
                  · intro hfalse
                    cases hfalse
                cases hfl : MediaPlayer.flush
                    { s1 with
                      readResults := rest
                      endOfPacketStream := true
                      events := s1.events ++
                        [PlayerEvent.readEof,
                          PlayerEvent.flushedDecoders] } with
                | mk rf sf =>
                rw [hfl] at h
                obtain ⟨f1, f2, f3⟩ := flush_preserves hfl
                have hinv4 : eventInv sf := eventInv_of_eq f1 f2 hinv3
                cases rf with
                | ok u => exact ih h hinv4
                | error fe =>
                  cases h
                  exact hinv4
              · rw [if_neg hre] at h
                cases h
                exact eventInv_of_eq rfl rfl hinv1
            | ok idx =>
              simp only at h
              have hinv3 : eventInv
                  (MediaPlayer.recordReadOk { s1 with readResults := rest }
                    idx) := by
                refine ⟨?_, ?_, ?_, ?_⟩
                · exact flushPrecededAux_append_readOk s1.events none idx
                    hinv1.1
                · show noReadAfterFlush (s1.events ++ _) = true
                  rw [noReadAfterFlush_append hcount]
                  rfl
                · show flushCount (s1.events ++ _) ≤ 1
                  rw [flushCount_append, hcount, flushCount_readOk]
                  decide
                · intro _
                  show flushCount (s1.events ++ _) = 0
                  rw [flushCount_append, hcount, flushCount_readOk]
              cases hd : MediaPlayer.dispatch_packet
                  (MediaPlayer.recordReadOk { s1 with readResults := rest }
                    idx) with
              | mk rd sd =>
              rw [hd] at h
              obtain ⟨d1, d2, d3⟩ := dispatch_packet_preserves hd
              have hinv4 : eventInv sd := eventInv_of_eq d1 d2 hinv3
              cases rd with
              | ok u => exact ih h hinv4
              | error de =>
                cases h
                exact hinv4
      · rw [if_neg he] at h
        cases h
        exact hinv1

/-- `process_next_frame` preserves the temporal invariant. -/
theorem process_next_frame_preserves_eventInv {s : PlayerState}
    (h : eventInv s) : eventInv (MediaPlayer.process_next_frame s).2 := by
  unfold MediaPlayer.process_next_frame
  rcases hp : MediaPlayer.processLoop (s.readResults.length + 2) s
      with ⟨rp, sp⟩
  have hinv := processLoop_preserves_eventInv _ hp h
  cases rp with
  | ok fp => exact eventInv_of_eq rfl rfl hinv
  | error e => exact hinv

/-- Iterating `process_next_frame` preserves the temporal invariant. -/
theorem runCalls_eventInv (n : Nat) (s0 : PlayerState) (h : eventInv s0) :
    eventInv (runCalls n s0) := by
  induction n generalizing s0 with
  | zero => exact h
  | succ m ih =>
    rw [runCalls]
    exact ih _ (process_next_frame_preserves_eventInv h)

end LibavPlayer

namespace LibavPlayer

/-- With no ready frame on any stream, `get_ready_frame` finds nothing and
changes nothing (all three sentinels are `i64::MAX`). -/
theorem get_ready_frame_of_readyNone {s : PlayerState}
    (h : readyNone s = true) :
    MediaPlayer.get_ready_frame s = (none, s) := by
  unfold readyNone at h
  simp only [Bool.and_eq_true, Option.isNone_iff_eq_none] at h
  obtain ⟨⟨h1, h2⟩, h3⟩ := h
  simp [MediaPlayer.get_ready_frame, h1, h2, h3]

/-- Polling a dry video decoder either swallows a "needs data" answer —
leaving every ready marker, the other decoder slots and the flag untouched —
or propagates an end-of-stream error. -/
theorem pollVideo_dry {s : PlayerState} {r : Except FFmpegError Unit}
    {s' : PlayerState} (h : MediaPlayer.pollVideo s = (r, s'))
    (hdry : slotDry s.decoderVideo = true) :
    (r = Except.ok () ∧ s'.frameVideoReady = s.frameVideoReady ∧
      s'.frameAudioReady = s.frameAudioReady ∧
      s'.frameSubtitleReady = s.frameSubtitleReady ∧
      s'.decoderAudio = s.decoderAudio ∧
      s'.decoderSubtitle = s.decoderSubtitle) ∨
    (∃ e, r = Except.error e ∧ e.is_eof = true) := by
  unfold MediaPlayer.pollVideo at h
  cases hd : s.decoderVideo with
  | none =>
    rw [hd] at h
    cases h
    exact Or.inl ⟨rfl, rfl, rfl, rfl, rfl, rfl⟩
  | some d =>
    rw [hd] at h
    simp only at h
    rw [hd] at hdry
    unfold slotDry at hdry
    simp only at hdry
    rcases hl : d.decodeResults with _ | ⟨r0, tail⟩
    · rw [hl] at hdry
      simp at hdry
    · rw [hl] at hdry
      cases r0 with
      | ok pts => simp at hdry
      | error e =>
        simp only at hdry
        have hnd0 : d.nextDecode =
            (Except.error e, { d with decodeResults := tail }) := by
          simp [DecoderSlot.nextDecode, hl]
        rw [hnd0] at h
        simp only at h
        by_cases hnd : e.needs_data = true
        · rw [if_pos hnd] at h
          cases h
          exact Or.inl ⟨rfl, rfl, rfl, rfl, rfl, rfl⟩
        · rw [if_neg hnd] at h
          cases h
          refine Or.inr ⟨e, rfl, ?_⟩
          cases heof : e.is_eof with
          | true => rfl
          | false =>
            rw [Bool.not_eq_true] at hnd
            rw [hnd, heof] at hdry
            cases hdry

/-- Same as `pollVideo_dry` for the audio poll. -/
theorem pollAudio_dry {s : PlayerState} {r : Except FFmpegError Unit}
    {s' : PlayerState} (h : MediaPlayer.pollAudio s = (r, s'))
    (hdry : slotDry s.decoderAudio = true) :
    (r = Except.ok () ∧ s'.frameVideoReady = s.frameVideoReady ∧
      s'.frameAudioReady = s.frameAudioReady ∧
      s'.frameSubtitleReady = s.frameSubtitleReady ∧
      s'.decoderVideo = s.decoderVideo ∧
      s'.decoderSubtitle = s.decoderSubtitle) ∨
    (∃ e, r = Except.error e ∧ e.is_eof = true) := by
  unfold MediaPlayer.pollAudio at h
  cases hd : s.decoderAudio with
  | none =>
    rw [hd] at h
    cases h
    exact Or.inl ⟨rfl, rfl, rfl, rfl, rfl, rfl⟩
  | some d =>
    rw [hd] at h
    simp only at h
    rw [hd] at hdry
    unfold slotDry at hdry
    simp only at hdry
    rcases hl : d.decodeResults with _ | ⟨r0, tail⟩
    · rw [hl] at hdry
      simp at hdry
    · rw [hl] at hdry
      cases r0 with
      | ok pts => simp at hdry
      | error e =>
        simp only at hdry
        have hnd0 : d.nextDecode =
            (Except.error e, { d with decodeResults := tail }) := by
          simp [DecoderSlot.nextDecode, hl]
        rw [hnd0] at h
        simp only at h
        by_cases hnd : e.needs_data = true
        · rw [if_pos hnd] at h
          cases h
          exact Or.inl ⟨rfl, rfl, rfl, rfl, rfl, rfl⟩
        · rw [if_neg hnd] at h
          cases h
          refine Or.inr ⟨e, rfl, ?_⟩
          cases heof : e.is_eof with
          | true => rfl
          | false =>
            rw [Bool.not_eq_true] at hnd
            rw [hnd, heof] at hdry
            cases hdry

/-- Same as `pollVideo_dry` for the subtitle poll. -/
theorem pollSubtitle_dry {s : PlayerState} {r : Except FFmpegError Unit}
    {s' : PlayerState} (h : MediaPlayer.pollSubtitle s = (r, s'))
    (hdry : slotDry s.decoderSubtitle = true) :
    (r = Except.ok () ∧ s'.frameVideoReady = s.frameVideoReady ∧
      s'.frameAudioReady = s.frameAudioReady ∧
      s'.frameSubtitleReady = s.frameSubtitleReady ∧
      s'.decoderVideo = s.decoderVideo ∧
      s'.decoderAudio = s.decoderAudio) ∨
    (∃ e, r = Except.error e ∧ e.is_eof = true) := by
  unfold MediaPlayer.pollSubtitle at h
  cases hd : s.decoderSubtitle with
  | none =>
    rw [hd] at h
    cases h
    exact Or.inl ⟨rfl, rfl, rfl, rfl, rfl, rfl⟩
  | some d =>
    rw [hd] at h
    simp only at h
    rw [hd] at hdry
    unfold slotDry at hdry
    simp only at hdry
    rcases hl : d.decodeResults with _ | ⟨r0, tail⟩
    · rw [hl] at hdry
      simp at hdry
    · rw [hl] at hdry
      cases r0 with
      | ok pts => simp at hdry
      | error e =>
        simp only at hdry
        have hnd0 : d.nextDecode =
            (Except.error e, { d with decodeResults := tail }) := by
          simp [DecoderSlot.nextDecode, hl]
        rw [hnd0] at h
        simp only at h
        by_cases hnd : e.needs_data = true
        · rw [if_pos hnd] at h
          cases h
          exact Or.inl ⟨rfl, rfl, rfl, rfl, rfl, rfl⟩
        · rw [if_neg hnd] at h
          cases h
          refine Or.inr ⟨e, rfl, ?_⟩
          cases heof : e.is_eof with
          | true => rfl
          | false =>
            rw [Bool.not_eq_true] at hnd
            rw [hnd, heof] at hdry
            cases hdry

/-- With nothing ready and every decoder dry, `get_next_frame` fails with a
"needs data" or end-of-stream error. -/
theorem get_next_frame_dry {s : PlayerState} (hr : readyNone s = true)
    (hd : decodersDry s = true) :
    ∃ e s1, MediaPlayer.get_next_frame s = (Except.error e, s1) ∧
      (e.needs_data || e.is_eof) = true := by
  unfold decodersDry at hd
  simp only [Bool.and_eq_true] at hd
  obtain ⟨⟨hdv, hda⟩, hds⟩ := hd
  unfold MediaPlayer.get_next_frame
  rw [get_ready_frame_of_readyNone hr]
  simp only
  rcases h2 : MediaPlayer.pollVideo s with ⟨r2, s2⟩
  rcases pollVideo_dry h2 hdv with
    ⟨hok, hm1, hm2, hm3, hsl1, hsl2⟩ | ⟨e, herr, heof⟩
  · subst hok
    simp only
    have hr2 : readyNone s2 = true := by
      unfold readyNone at hr ⊢
      rw [hm1, hm2, hm3]
      exact hr
    rcases h3 : MediaPlayer.pollAudio s2 with ⟨r3, s3⟩
    rcases pollAudio_dry h3 (hsl1 ▸ hda) with
      ⟨hok3, hn1, hn2, hn3, htl1, htl2⟩ | ⟨e3, herr3, heof3⟩
    · subst hok3
      simp only
      have hr3 : readyNone s3 = true := by
        unfold readyNone at hr2 ⊢
        rw [hn1, hn2, hn3]
        exact hr2
      rcases h4 : MediaPlayer.pollSubtitle s3 with ⟨r4, s4⟩
      rcases pollSubtitle_dry h4 ((htl2.trans hsl2) ▸ hds) with
        ⟨hok4, hp1, hp2, hp3, _, _⟩ | ⟨e4, herr4, heof4⟩
      · subst hok4
        simp only
        have hr4 : readyNone s4 = true := by
          unfold readyNone at hr3 ⊢
          rw [hp1, hp2, hp3]
          exact hr3
        rw [get_ready_frame_of_readyNone hr4]
        exact ⟨⟨eagainErrno⟩, s4, rfl, by decide⟩
      · subst herr4
        simp only
        exact ⟨e4, s4, rfl, by rw [heof4, Bool.or_true]⟩
    · subst herr3
      simp only
      exact ⟨e3, s3, rfl, by rw [heof3, Bool.or_true]⟩
  · subst herr
    simp only
    exact ⟨e, s2, rfl, by rw [heof, Bool.or_true]⟩

end LibavPlayer

namespace LibavPlayer

/-- With `end_of_packet_stream` set and every decoder drained,
`process_next_frame` reports end-of-stream. -/
theorem process_next_frame_at_end {s : PlayerState}
    (heop : s.endOfPacketStream = true) (hr : readyNone s = true)
    (hd : decodersDry s = true) :
    (MediaPlayer.process_next_frame s).1 =
      Except.error PlayerError.endOfStream := by
  obtain ⟨e, s1, hgnf, he⟩ := get_next_frame_dry hr hd
  obtain ⟨_, heop1, _⟩ := get_next_frame_preserves hgnf
  unfold MediaPlayer.process_next_frame
  rw [show s.readResults.length + 2 = s.readResults.length + 1 + 1 from rfl]
  rw [MediaPlayer.processLoop]
  rw [hgnf]
  simp only
  rw [if_pos he, if_pos (heop1.trans heop)]

/-- **C3.**  Over any run of `process_next_frame` calls from a fresh player
(empty event trace, `end_of_packet_stream` unset): the decoders are flushed
at most once for the player's lifetime (and `MediaPlayer::flush` flushes
each decoder exactly once per invocation, so at most once per decoder), a
flush happens only directly after the source reports end-of-input, no packet
is read from the source after the flush/`end_of_packet_stream` transition,
and once `end_of_packet_stream` is set and no decoder yields a further
frame, `process_next_frame` returns the end-of-stream signal. -/
theorem flush_once_only_after_eof (s0 : PlayerState) (n : Nat)
    (hev : s0.events = []) (heop : s0.endOfPacketStream = false) :
    flushCount (runCalls n s0).events ≤ 1 ∧
    flushPreceded (runCalls n s0).events = true ∧
    noReadAfterFlush (runCalls n s0).events = true ∧
    (∀ s : PlayerState, s.endOfPacketStream = true → readyNone s = true →
      decodersDry s = true →
      (MediaPlayer.process_next_frame s).1 =
        Except.error PlayerError.endOfStream) := by
  have h0 : eventInv s0 := by
    rw [eventInv, hev]
    exact ⟨rfl, rfl, by decide, fun _ => rfl⟩
  have hinv := runCalls_eventInv n s0 h0
  exact ⟨hinv.2.2.1, hinv.1, hinv.2.1,
    fun s h1 h2 h3 => process_next_frame_at_end h1 h2 h3⟩

/-- Witness for C3: the audio-only `c3WitnessState` reaches end-of-input on
its first call (one flush, directly after the end-of-input read, no read
after it), and the drained state after that call returns end-of-stream. -/
theorem flush_once_only_after_eof_witness :
    flushCount (runCalls 2 c3WitnessState).events ≤ 1 ∧
    flushPreceded (runCalls 2 c3WitnessState).events = true ∧
    noReadAfterFlush (runCalls 2 c3WitnessState).events = true ∧
    (MediaPlayer.process_next_frame (runCalls 1 c3WitnessState)).1 =
      Except.error PlayerError.endOfStream :=
  ⟨(flush_once_only_after_eof c3WitnessState 2 rfl rfl).1,
    (flush_once_only_after_eof c3WitnessState 2 rfl rfl).2.1,
    (flush_once_only_after_eof c3WitnessState 2 rfl rfl).2.2.1,
    (flush_once_only_after_eof c3WitnessState 2 rfl rfl).2.2.2
      (runCalls 1 c3WitnessState) rfl rfl rfl⟩

end LibavPlayer
